import Mathlib

/-!
# Vorb sprite batch: glyph accumulation, sorting, batch coalescing, rendering and disposal

A shallow embedding of `src/src/graphics/SpriteBatch.cpp`, and of `vui::parseSliderEntry` of
`src/src/ui/widgets/yaml/Slider.cpp`.

* The scalar type `f32` is a parameter `F`.  Each definition assumes of `F` what the source
  uses there: ring arithmetic in the `draw` overloads, a linear order (no NaN) in the sort
  comparators.  Arithmetic is exact.  The definitions are computable for computable `F`, for
  instance the rationals.
* Handles and `ui32` values are natural numbers; `i32` values are integers.  Signed overflow
  is undefined behaviour in C++ and is outside the model: a frame holds fewer than
  `2^31 / 6` glyphs.
* Pointers to glyphs and batch descriptors are modelled by the records they point to.  The
  vectors `_glyphs` and `_batches` are lists in `push_back` order.
* Calls into the graphics device are recorded, in order, in the field `glCalls`.
-/

/-- Two-component float vector (`f32v2`). -/
structure f32v2 (F : Type) where
  x : F
  y : F
deriving DecidableEq, Repr

/-- Three-component float vector (`f32v3`). -/
structure f32v3 (F : Type) where
  x : F
  y : F
  z : F
deriving DecidableEq, Repr

/-- Four-component float vector (`f32v4`). -/
structure f32v4 (F : Type) where
  x : F
  y : F
  z : F
  w : F
deriving DecidableEq, Repr

/-- A 4x4 float matrix (`f32m4`), stored column by column as the source's constructor
`f32m4(x0, y0, z0, w0, x1, ...)` fills it: `c0` is the first column. -/
structure f32m4 (F : Type) where
  c0 : f32v4 F
  c1 : f32v4 F
  c2 : f32v4 F
  c3 : f32v4 F
deriving DecidableEq, Repr

/-- Four-channel 8-bit colour (`ColorRGBA8`); the channels are only copied, never computed
with. -/
structure ColorRGBA8 where
  r : Nat
  g : Nat
  b : Nat
  a : Nat
deriving DecidableEq, Repr

/-- Modelled from the spec: `PtrRecycler<T>` (its header is not under src) is "a pool enabling
reuse of fixed-shape records without reallocation".  The pool is the list of the records that
were released, oldest first.  The record handed out by `create` is not part of the model,
since every caller overwrites all of its fields. -/
structure PtrRecycler (α : Type) where
  recycled : List α
deriving DecidableEq, Repr

/-- Takes a record out of the pool when one is available (`PtrRecycler::create`). -/
def PtrRecycler.create {α : Type} (r : PtrRecycler α) : PtrRecycler α :=
  { recycled := r.recycled.dropLast }

/-- Returns a record to the pool (`PtrRecycler::recycle`). -/
def PtrRecycler.recycle {α : Type} (r : PtrRecycler α) (data : α) : PtrRecycler α :=
  { recycled := r.recycled ++ [data] }

/-- Model of `std::stable_sort(first, last, comp)` of the C++ standard library, where `comp`
is a strict "comes before" comparator: the result is ordered by `comp` and elements that are
equivalent under `comp` keep their relative order.  `stable_insert x l` puts `x`, which
precedes every element of `l` in the input, in front of the first element that does not come
before `x`. -/
def stable_insert {α : Type} (comp : α → α → Bool) (x : α) : List α → List α
  | [] => [x]
  | y :: ys => if comp y x then y :: stable_insert comp x ys else x :: y :: ys

/-- See `stable_insert`. -/
def stable_sort {α : Type} (comp : α → α → Bool) : List α → List α
  | [] => []
  | x :: xs => stable_insert comp x (stable_sort comp xs)

namespace vui

/-- A setter call made on the `vui::Slider` that `parseSliderEntry` configures, or the hand-over
of an entry to `parseWidgetEntry`.  The class `Slider` is not under src, so a slider is observed
through the calls made on it; `setMax` is the setter that `parseSliderEntry` never calls.
`Node` is `keg::Node`, `Raw` and `Length` are the two members of `Length2OrRaw`, `F` is
`f32`. -/
inductive SliderCall (Node Raw Length F : Type) where
  | setBarColor (color : ColorRGBA8)
  | setSlideColor (color : ColorRGBA8)
  | setSlideHoverColor (color : ColorRGBA8)
  | setSlideTexture (id : Nat)
  | setBarTexture (id : Nat)
  | setValue (slideValue : Int)
  | setRange (min max : Int)
  | setMin (minVal : Int)
  | setMax (maxVal : Int)
  | setSlideSizeRaw (raw : Raw)
  | setSlideSizeLength (length : Length)
  | setIsVertical (isVertical : Bool)
  | setNaturalScroll (naturalScroll : Bool)
  | setElasticScroll (elasticScroll : Bool)
  | setSlideWeight (slideWeight : F)
  | setSlideKineticFriction (slideKineticFriction : F)
  | setSlideStaticFriction (slideStaticFriction : F)
  | setSlideMaxSpeed (slideMaxSpeed : F)
  | setScrollSensitivity (scrollSensitivity : F)
  | setScrollOnParent (scrollOnParent : Bool)
  | parseWidgetEntry (name : String) (value : Node)
deriving DecidableEq, Repr

/-- The helpers `parseSliderEntry` calls, none of which is under src: the YAML value parsers
(`none` when they return `false`), the node type test, the string content of a node, the
texture cache (the id of the texture it returns) and the result of `parseWidgetEntry`. -/
structure SliderParsers (Node Raw Length F : Type) where
  parseColor : Node → Option ColorRGBA8
  isValue : Node → Bool
  asString : Node → String
  addTexture : String → Nat
  parseI32 : Node → Option Int
  parseVec2 : Node → Option (Int × Int)
  parseLength2OrRaw : Node → Int × Raw × Length
  parseBool : Node → Option Bool
  parseF32 : Node → Option F
  parseWidgetEntry : String → Node → Bool

/-- The shape shared by the branches of `parseSliderEntry` that parse a value and pass it to
one setter: `if (!parse(*value, x)) return false; slider->set(x);` followed by the final
`return true`. -/
def parsedThen {α C : Type} (parsed : Option α) (setter : α → C) : Bool × List C :=
  match parsed with
  | none => (false, [])
  | some x => (true, [setter x])

/-- `vui::parseSliderEntry`: the return value and the calls made on the slider, in order. -/
def parseSliderEntry {Node Raw Length F : Type} (env : SliderParsers Node Raw Length F)
    (name : String) (value : Node) : Bool × List (SliderCall Node Raw Length F) :=
  if name = "bar_color" then parsedThen (env.parseColor value) SliderCall.setBarColor
  else if name = "slider_color" then parsedThen (env.parseColor value) SliderCall.setSlideColor
  else if name = "slider_hover_color" then
    parsedThen (env.parseColor value) SliderCall.setSlideHoverColor
  else if name = "slider_texture" then
    if env.isValue value = false then (false, [])
    else (true, [SliderCall.setSlideTexture (env.addTexture (env.asString value))])
  else if name = "bar_texture" then
    if env.isValue value = false then (false, [])
    else (true, [SliderCall.setBarTexture (env.addTexture (env.asString value))])
  else if name = "value" then parsedThen (env.parseI32 value) SliderCall.setValue
  else if name = "range" then
    parsedThen (env.parseVec2 value) (fun range => SliderCall.setRange range.1 range.2)
  else if name = "min" then parsedThen (env.parseI32 value) SliderCall.setMin
  else if name = "max" then parsedThen (env.parseI32 value) SliderCall.setMin
  else if name = "slide_size" then
    let r := env.parseLength2OrRaw value
    if r.1 = 1 then (true, [SliderCall.setSlideSizeRaw r.2.1])
    else if r.1 = 2 then (true, [SliderCall.setSlideSizeLength r.2.2])
    else (false, [])
  else if name = "vertical" then parsedThen (env.parseBool value) SliderCall.setIsVertical
  else if name = "natural_scroll" then
    parsedThen (env.parseBool value) SliderCall.setNaturalScroll
  else if name = "elastic_scroll" then
    parsedThen (env.parseBool value) SliderCall.setElasticScroll
  else if name = "slide_weight" then parsedThen (env.parseF32 value) SliderCall.setSlideWeight
  else if name = "slide_kinetic_friction" then
    parsedThen (env.parseF32 value) SliderCall.setSlideKineticFriction
  else if name = "slide_static_friction" then
    parsedThen (env.parseF32 value) SliderCall.setSlideStaticFriction
  else if name = "slide_max_speed" then
    parsedThen (env.parseF32 value) SliderCall.setSlideMaxSpeed
  else if name = "scroll_sensitivity" then
    parsedThen (env.parseF32 value) SliderCall.setScrollSensitivity
  else if name = "scroll_on_parent" then
    parsedThen (env.parseBool value) SliderCall.setScrollOnParent
  else (env.parseWidgetEntry name value, [SliderCall.parseWidgetEntry name value])

/-- Parsers over nodes that are plain integers: every integer parse succeeds with the node
itself, every other parse fails. -/
def intNodeParsers : SliderParsers Int Unit Unit Int :=
  { parseColor := fun _ => none
    isValue := fun _ => true
    asString := fun _ => ""
    addTexture := fun _ => 0
    parseI32 := fun n => some n
    parseVec2 := fun _ => none
    parseLength2OrRaw := fun _ => (0, (), ())
    parseBool := fun _ => none
    parseF32 := fun _ => none
    parseWidgetEntry := fun _ _ => false }

end vui

namespace vg

/-- One vertex of a sprite quad (`vg::VertexSpriteBatch`). -/
structure VertexSpriteBatch (F : Type) where
  position : f32v3 F
  uv : f32v2 F
  uvRect : f32v4 F
  color : ColorRGBA8
deriving DecidableEq, Repr

/-- One quad submission (`vg::SpriteGlyph`): texture, depth and the four corner vertices
top-left, top-right, bottom-left, bottom-right. -/
structure SpriteGlyph (F : Type) where
  textureID : Nat
  depth : F
  vtl : VertexSpriteBatch F
  vtr : VertexSpriteBatch F
  vbl : VertexSpriteBatch F
  vbr : VertexSpriteBatch F
deriving DecidableEq, Repr

/-- A batch descriptor (`vg::SpriteBatch::SpriteBatchCall`): a run of `indices` vertices
starting at vertex `indexOffset`, drawn with texture `textureID`. -/
structure SpriteBatchCall where
  textureID : Nat
  indices : Int
  indexOffset : Int
deriving DecidableEq, Repr

/-- Modelled from the spec: the declaration of `enum class SpriteSortMode` is not under src.
The three named values are the `case` labels of `sortGlyphs`; `other v` stands for every
further value of the enumeration, all of which reach the `default` label. -/
inductive SpriteSortMode where
  | TEXTURE
  | FRONT_TO_BACK
  | BACK_TO_FRONT
  | other (v : Nat)
deriving DecidableEq, Repr

/-- Modelled from the spec: the depth-test state object passed to `renderBatch`
(`graphics/DepthState.h` is not under src); `NONE` is the documented default "depth off". -/
inductive DepthState where
  | NONE
  | user (id : Nat)
deriving DecidableEq, Repr

/-- Modelled from the spec: the rasterizer state object passed to `renderBatch`
(`graphics/RasterizerState.h` is not under src); `CULL_NONE` is the documented default
"no culling". -/
inductive RasterizerState where
  | CULL_NONE
  | user (id : Nat)
deriving DecidableEq, Repr

/-- Modelled from the spec: the sampler state object passed to `renderBatch`
(`graphics/SamplerState.h` is not under src); `LINEAR_WRAP` is the documented default
"linear+wrap sampling". -/
inductive SamplerState where
  | LINEAR_WRAP
  | user (id : Nat)
deriving DecidableEq, Repr

/-- A call into the graphics device, with sizes counted in vertex records (the byte sizes of
the source are these counts times `sizeof(VertexSpriteBatch)`).
`bufferData n usage` is `glBufferData(GL_ARRAY_BUFFER, n * sizeof, nullptr, usage)`;
`bufferSubData first n data` is `glBufferSubData(GL_ARRAY_BUFFER, first * sizeof, n * sizeof,
data)`.  The calls of `dispose` and `renderBatch` follow: a shader program is named by its
handle and a uniform by its name; `activeTexture 0` is `glActiveTexture(GL_TEXTURE0)`;
`drawArrays first count` is `glDrawArrays(GL_TRIANGLES, first, count)`. -/
inductive GLCall (F : Type) where
  | bindBuffer (buffer : Nat)
  | bufferData (vertices : Nat) (usage : Nat)
  | bufferSubData (first : Nat) (vertices : Nat) (data : List (VertexSpriteBatch F))
  | deleteBuffers (buffer : Nat)
  | deleteVertexArrays (array : Nat)
  | deleteTextures (texture : Nat)
  | depthStateSet (ds : DepthState)
  | rasterizerStateSet (rs : RasterizerState)
  | programUse (shader : Nat)
  | uniformMatrix4fv (shader : Nat) (uniform : String) (value : f32m4 F)
  | bindVertexArray (array : Nat)
  | activeTexture (unit : Nat)
  | uniform1i (shader : Nat) (uniform : String) (value : Int)
  | bindTexture (texture : Nat)
  | samplerSetObject (ss : SamplerState) (unit : Nat)
  | drawArrays (first : Int) (count : Int)
  | bindSampler (unit : Nat) (sampler : Nat)
  | programUnuse (shader : Nat)
deriving DecidableEq, Repr

/-- The state of a `vg::SpriteBatch`. -/
structure SpriteBatch (F : Type) where
  _bufUsage : Nat
  _vao : Nat
  _vbo : Nat
  _glyphCapacity : Nat
  _texPixel : Nat
  _glyphs : List (SpriteGlyph F)
  _batches : List SpriteBatchCall
  _glyphRecycler : PtrRecycler (SpriteGlyph F)
  _batchRecycler : PtrRecycler SpriteBatchCall
  glCalls : List (GLCall F)
deriving DecidableEq, Repr

/-- An argument list of one of the five `draw` overloads, most general first. -/
inductive DrawCall (F : Type) where
  | rotated (t : Nat) (uvRect : Option (f32v4 F)) (uvTiling : Option (f32v2 F))
      (position offset size : f32v2 F) (rotation : F) (tint : ColorRGBA8) (depth : F)
  | pivoted (t : Nat) (uvRect : Option (f32v4 F)) (uvTiling : Option (f32v2 F))
      (position offset size : f32v2 F) (tint : ColorRGBA8) (depth : F)
  | tiled (t : Nat) (uvRect : Option (f32v4 F)) (uvTiling : Option (f32v2 F))
      (position size : f32v2 F) (tint : ColorRGBA8) (depth : F)
  | clipped (t : Nat) (uvRect : Option (f32v4 F)) (position size : f32v2 F)
      (tint : ColorRGBA8) (depth : F)
  | simple (t : Nat) (position size : f32v2 F) (tint : ColorRGBA8) (depth : F)
deriving DecidableEq, Repr

variable {F : Type}

/-- Modelled from the spec: the comparator `SSMTexture` is declared in the header, which is
not under src.  Texture policy: "primary key = texture handle (... numeric handle value)". -/
def SSMTexture (g1 g2 : SpriteGlyph F) : Bool :=
  decide (g1.textureID < g2.textureID)

/-- Modelled from the spec: the comparator `SSMFrontToBack` is declared in the header, which
is not under src.  FrontToBack policy: "primary key = depth ascending (nearer first)". -/
def SSMFrontToBack [LinearOrder F] (g1 g2 : SpriteGlyph F) : Bool :=
  decide (g1.depth < g2.depth)

/-- Modelled from the spec: the comparator `SSMBackToFront` is declared in the header, which
is not under src.  BackToFront policy: "primary key = depth descending (farther first)". -/
def SSMBackToFront [LinearOrder F] (g1 g2 : SpriteGlyph F) : Bool :=
  decide (g1.depth > g2.depth)

/-- `SpriteBatch::begin`. -/
def SpriteBatch.begin (s : SpriteBatch F) : SpriteBatch F :=
  let s1 : SpriteBatch F :=
    if s._glyphs.length > 0 then
      { s with
        _glyphRecycler := s._glyphs.foldl PtrRecycler.recycle s._glyphRecycler
        _glyphs := [] }
    else s
  { s1 with
    _batchRecycler := s1._batches.foldl PtrRecycler.recycle s1._batchRecycler
    _batches := [] }

/-- The default-substituted UV rectangle: `uvRect != nullptr ? *uvRect : f32v4(0, 0, 1, 1)`. -/
def uvrOrDefault [Ring F] (uvRect : Option (f32v4 F)) : f32v4 F :=
  match uvRect with
  | some r => r
  | none => { x := 0, y := 0, z := 1, w := 1 }

/-- The default-substituted tiling: `uvTiling != nullptr ? *uvTiling : f32v2(1, 1)`. -/
def uvtOrDefault [Ring F] (uvTiling : Option (f32v2 F)) : f32v2 F :=
  match uvTiling with
  | some t => t
  | none => { x := 1, y := 1 }

/-- The assignments every `draw` overload makes to one vertex of the glyph. -/
def mkVertex (px py pz u v : F) (uvr : f32v4 F) (tint : ColorRGBA8) : VertexSpriteBatch F :=
  { position := { x := px, y := py, z := pz }, uv := { x := u, y := v }, uvRect := uvr,
    color := tint }

/-- The tail shared by the five `draw` overloads: the glyph record comes from the recycler
and is pushed at the back of `_glyphs`. -/
def SpriteBatch.pushGlyph (s : SpriteBatch F) (g : SpriteGlyph F) : SpriteBatch F :=
  { s with _glyphRecycler := s._glyphRecycler.create, _glyphs := s._glyphs ++ [g] }

/-- `SpriteBatch::draw(t, uvRect, uvTiling, position, offset, size, rotation, tint, depth)`;
`cosf` and `sinf` are the library functions `cos` and `sin`, rounded to `f32`. -/
def SpriteBatch.draw [Ring F] (cosf sinf : F → F) (s : SpriteBatch F) (t : Nat)
    (uvRect : Option (f32v4 F)) (uvTiling : Option (f32v2 F)) (position offset size : f32v2 F)
    (rotation : F) (tint : ColorRGBA8) (depth : F) : SpriteBatch F :=
  let uvr := uvrOrDefault uvRect
  let uvt := uvtOrDefault uvTiling
  let rxx := cosf (-rotation)
  let rxy := sinf (-rotation)
  let cl := size.x * (-offset.x)
  let cr := size.x * (1 - offset.x)
  let ct := size.y * (-offset.y)
  let cb := size.y * (1 - offset.y)
  s.pushGlyph
    { textureID := if t = 0 then s._texPixel else t
      depth := depth
      vtl := mkVertex ((cl * rxx) + (ct * rxy) + position.x)
        ((cl * -rxy) + (ct * rxx) + position.y) depth 0 0 uvr tint
      vtr := mkVertex ((cr * rxx) + (ct * rxy) + position.x)
        ((cr * -rxy) + (ct * rxx) + position.y) depth uvt.x 0 uvr tint
      vbl := mkVertex ((cl * rxx) + (cb * rxy) + position.x)
        ((cl * -rxy) + (cb * rxx) + position.y) depth 0 uvt.y uvr tint
      vbr := mkVertex ((cr * rxx) + (cb * rxy) + position.x)
        ((cr * -rxy) + (cb * rxx) + position.y) depth uvt.x uvt.y uvr tint }

/-- `SpriteBatch::draw(t, uvRect, uvTiling, position, offset, size, tint, depth)`. -/
def SpriteBatch.draw_offset [Ring F] (s : SpriteBatch F) (t : Nat) (uvRect : Option (f32v4 F))
    (uvTiling : Option (f32v2 F)) (position offset size : f32v2 F) (tint : ColorRGBA8)
    (depth : F) : SpriteBatch F :=
  let uvr := uvrOrDefault uvRect
  let uvt := uvtOrDefault uvTiling
  let cl := size.x * (-offset.x)
  let cr := size.x * (1 - offset.x)
  let ct := size.y * (-offset.y)
  let cb := size.y * (1 - offset.y)
  s.pushGlyph
    { textureID := if t = 0 then s._texPixel else t
      depth := depth
      vtl := mkVertex (cl + position.x) (ct + position.y) depth 0 0 uvr tint
      vtr := mkVertex (cr + position.x) (ct + position.y) depth uvt.x 0 uvr tint
      vbl := mkVertex (cl + position.x) (cb + position.y) depth 0 uvt.y uvr tint
      vbr := mkVertex (cr + position.x) (cb + position.y) depth uvt.x uvt.y uvr tint }

/-- `SpriteBatch::draw(t, uvRect, uvTiling, position, size, tint, depth)`. -/
def SpriteBatch.draw_tiling [Ring F] (s : SpriteBatch F) (t : Nat) (uvRect : Option (f32v4 F))
    (uvTiling : Option (f32v2 F)) (position size : f32v2 F) (tint : ColorRGBA8)
    (depth : F) : SpriteBatch F :=
  let uvr := uvrOrDefault uvRect
  let uvt := uvtOrDefault uvTiling
  s.pushGlyph
    { textureID := if t = 0 then s._texPixel else t
      depth := depth
      vtl := mkVertex position.x position.y depth 0 0 uvr tint
      vtr := mkVertex (size.x + position.x) position.y depth uvt.x 0 uvr tint
      vbl := mkVertex position.x (size.y + position.y) depth 0 uvt.y uvr tint
      vbr := mkVertex (size.x + position.x) (size.y + position.y) depth uvt.x uvt.y uvr tint }

/-- `SpriteBatch::draw(t, uvRect, position, size, tint, depth)`. -/
def SpriteBatch.draw_uvRect [Ring F] (s : SpriteBatch F) (t : Nat) (uvRect : Option (f32v4 F))
    (position size : f32v2 F) (tint : ColorRGBA8) (depth : F) : SpriteBatch F :=
  let uvr := uvrOrDefault uvRect
  s.pushGlyph
    { textureID := if t = 0 then s._texPixel else t
      depth := depth
      vtl := mkVertex position.x position.y depth 0 0 uvr tint
      vtr := mkVertex (size.x + position.x) position.y depth 1 0 uvr tint
      vbl := mkVertex position.x (size.y + position.y) depth 0 1 uvr tint
      vbr := mkVertex (size.x + position.x) (size.y + position.y) depth 1 1 uvr tint }

/-- `SpriteBatch::draw(t, position, size, tint, depth)`. -/
def SpriteBatch.draw_simple [Ring F] (s : SpriteBatch F) (t : Nat) (position size : f32v2 F)
    (tint : ColorRGBA8) (depth : F) : SpriteBatch F :=
  let unit : f32v4 F := { x := 0, y := 0, z := 1, w := 1 }
  s.pushGlyph
    { textureID := if t = 0 then s._texPixel else t
      depth := depth
      vtl := mkVertex position.x position.y depth 0 0 unit tint
      vtr := mkVertex (size.x + position.x) position.y depth 1 0 unit tint
      vbl := mkVertex position.x (size.y + position.y) depth 0 1 unit tint
      vbr := mkVertex (size.x + position.x) (size.y + position.y) depth 1 1 unit tint }

/-- One `draw` call, dispatched on the overload. -/
def SpriteBatch.drawCall [Ring F] (cosf sinf : F → F) (s : SpriteBatch F) : DrawCall F → SpriteBatch F
  | .rotated t uvRect uvTiling position offset size rotation tint depth =>
      s.draw cosf sinf t uvRect uvTiling position offset size rotation tint depth
  | .pivoted t uvRect uvTiling position offset size tint depth =>
      s.draw_offset t uvRect uvTiling position offset size tint depth
  | .tiled t uvRect uvTiling position size tint depth =>
      s.draw_tiling t uvRect uvTiling position size tint depth
  | .clipped t uvRect position size tint depth => s.draw_uvRect t uvRect position size tint depth
  | .simple t position size tint depth => s.draw_simple t position size tint depth

/-- A sequence of `draw` calls, in call order. -/
def SpriteBatch.drawCalls [Ring F] (cosf sinf : F → F) (s : SpriteBatch F) (ds : List (DrawCall F)) :
    SpriteBatch F :=
  ds.foldl (SpriteBatch.drawCall cosf sinf) s

/-- `SpriteBatch::sortGlyphs`. -/
def SpriteBatch.sortGlyphs [LinearOrder F] (ssm : SpriteSortMode) (s : SpriteBatch F) : SpriteBatch F :=
  if s._glyphs.length < 1 then s
  else
    match ssm with
    | .TEXTURE => { s with _glyphs := stable_sort SSMTexture s._glyphs }
    | .FRONT_TO_BACK => { s with _glyphs := stable_sort SSMFrontToBack s._glyphs }
    | .BACK_TO_FRONT => { s with _glyphs := stable_sort SSMBackToFront s._glyphs }
    | .other _ => s

/-- `SpriteBatchCall::set`: fills the descriptor and pushes it at the back of `calls`.
Returns the descriptor (`this`) and the vector. -/
def SpriteBatchCall.set (iOff : Int) (texID : Nat) (calls : List SpriteBatchCall) :
    SpriteBatchCall × List SpriteBatchCall :=
  let this : SpriteBatchCall := { textureID := texID, indices := 6, indexOffset := iOff }
  (this, calls ++ [this])

/-- `SpriteBatchCall::append`.  The receiver is the descriptor that was pushed last on
`calls` (the seed of `generateBatches`, or the result of the previous `append`), so the
in-place `indices += 6` rewrites the last element of `calls`.  Returns the descriptor the
source returns, the vector and the recycler. -/
def SpriteBatchCall.append (this : SpriteBatchCall) (g : SpriteGlyph F)
    (calls : List SpriteBatchCall) (recycler : PtrRecycler SpriteBatchCall) :
    SpriteBatchCall × List SpriteBatchCall × PtrRecycler SpriteBatchCall :=
  if g.textureID ≠ this.textureID then
    let sbc := SpriteBatchCall.set (this.indexOffset + this.indices) g.textureID calls
    (sbc.1, sbc.2, recycler.create)
  else
    let this1 : SpriteBatchCall := { this with indices := this.indices + 6 }
    (this1, calls.dropLast ++ [this1], recycler)

/-- The six `verts[vi++] = ...` assignments of `generateBatches` for one glyph. -/
def SpriteGlyph.sixVerts (g : SpriteGlyph F) : List (VertexSpriteBatch F) :=
  [g.vtl, g.vbl, g.vbr, g.vbr, g.vtr, g.vtl]

/-- The variables the glyph loop of `generateBatches` updates: the current descriptor `call`,
the vector `_batches`, the two recyclers and the filled prefix of `verts` (its length is the
counter `vi`). -/
structure GenLoop (F : Type) where
  call : SpriteBatchCall
  _batches : List SpriteBatchCall
  _batchRecycler : PtrRecycler SpriteBatchCall
  _glyphRecycler : PtrRecycler (SpriteGlyph F)
  verts : List (VertexSpriteBatch F)
deriving DecidableEq, Repr

/-- One iteration of the loop `for (i = 1; i < gc; i++)` of `generateBatches`. -/
def GenLoop.step (st : GenLoop F) (glyph : SpriteGlyph F) : GenLoop F :=
  let r := st.call.append glyph st._batches st._batchRecycler
  { call := r.1
    _batches := r.2.1
    _batchRecycler := r.2.2
    _glyphRecycler := st._glyphRecycler.recycle glyph
    verts := st.verts ++ glyph.sixVerts }

/-- `SpriteBatch::generateBatches`. -/
def SpriteBatch.generateBatches (s : SpriteBatch F) : SpriteBatch F :=
  match s._glyphs with
  | [] => s
  | g0 :: rest =>
    let call : SpriteBatchCall := { textureID := g0.textureID, indices := 6, indexOffset := 0 }
    let st0 : GenLoop F :=
      { call := call
        _batches := s._batches ++ [call]
        _batchRecycler := s._batchRecycler.create
        _glyphRecycler := s._glyphRecycler.recycle g0
        verts := g0.sixVerts }
    let gc := s._glyphs.length
    let st := rest.foldl GenLoop.step st0
    let grow : Bool := decide (gc > s._glyphCapacity)
    let cap := if grow then gc * 2 else s._glyphCapacity
    { s with
      _glyphs := []
      _batches := st._batches
      _batchRecycler := st._batchRecycler
      _glyphRecycler := st._glyphRecycler
      _glyphCapacity := cap
      glCalls := s.glCalls ++ [GLCall.bindBuffer s._vbo]
        ++ (if grow then [GLCall.bufferData (cap * 6) s._bufUsage] else [])
        ++ [GLCall.bufferSubData 0 (gc * 6) st.verts, GLCall.bindBuffer 0] }

/-- `SpriteBatch::end`. -/
def SpriteBatch.end' [LinearOrder F] (ssm : SpriteSortMode) (s : SpriteBatch F) : SpriteBatch F :=
  (s.sortGlyphs ssm).generateBatches

/-- `VertexSpriteBatch::VertexSpriteBatch()`: the all-zero vertex. -/
def VertexSpriteBatch.new [Ring F] : VertexSpriteBatch F :=
  { position := { x := 0, y := 0, z := 0 }, uv := { x := 0, y := 0 },
    uvRect := { x := 0, y := 0, z := 0, w := 0 }, color := { r := 0, g := 0, b := 0, a := 0 } }

/-- `SpriteGlyph::SpriteGlyph(texID, d)`: the four vertices are default-constructed. -/
def SpriteGlyph.new [Ring F] (texID : Nat) (d : F) : SpriteGlyph F :=
  { textureID := texID, depth := d, vtl := VertexSpriteBatch.new, vtr := VertexSpriteBatch.new,
    vbl := VertexSpriteBatch.new, vbr := VertexSpriteBatch.new }

/-- The OpenGL constant `GL_DYNAMIC_DRAW`. -/
def GL_DYNAMIC_DRAW : Nat := 0x88E8

/-- The OpenGL constant `GL_STATIC_DRAW`. -/
def GL_STATIC_DRAW : Nat := 0x88E4

/-- `SpriteBatch::SpriteBatch(isDynamic, doInit = false)`.  The constructor does not
initialise `_texPixel`, whose value is the parameter `texPixel`; the vectors and the recyclers
start empty. -/
def SpriteBatch.new (F : Type) (isDynamic : Bool) (texPixel : Nat) : SpriteBatch F :=
  { _bufUsage := if isDynamic then GL_DYNAMIC_DRAW else GL_STATIC_DRAW
    _vao := 0
    _vbo := 0
    _glyphCapacity := 0
    _texPixel := texPixel
    _glyphs := []
    _batches := []
    _glyphRecycler := { recycled := [] }
    _batchRecycler := { recycled := [] }
    glCalls := [] }

/-- An accumulating batch holding three default glyphs with textures 5, 5 and 7. -/
def frame557 : SpriteBatch ℚ :=
  { SpriteBatch.new ℚ true 9 with
    _glyphs := [SpriteGlyph.new 5 0, SpriteGlyph.new 5 0, SpriteGlyph.new 7 0] }

/-- Four calls of the simple `draw` overload, with textures 7, 5, 5 and 9 in call order. -/
def draws7559 : List (DrawCall ℚ) :=
  [DrawCall.simple 7 { x := 0, y := 0 } { x := 1, y := 1 } { r := 0, g := 0, b := 0, a := 0 } 0,
   DrawCall.simple 5 { x := 1, y := 0 } { x := 1, y := 1 } { r := 0, g := 0, b := 0, a := 0 } 0,
   DrawCall.simple 5 { x := 2, y := 0 } { x := 1, y := 1 } { r := 0, g := 0, b := 0, a := 0 } 0,
   DrawCall.simple 9 { x := 3, y := 0 } { x := 1, y := 1 } { r := 0, g := 0, b := 0, a := 0 } 0]

/-- `SpriteBatch::dispose`. -/
def SpriteBatch.dispose (s : SpriteBatch F) : SpriteBatch F :=
  let s1 : SpriteBatch F :=
    if s._vbo ≠ 0 then
      { s with glCalls := s.glCalls ++ [GLCall.deleteBuffers s._vbo], _vbo := 0 }
    else s
  let s2 : SpriteBatch F :=
    if s1._vao ≠ 0 then
      { s1 with glCalls := s1.glCalls ++ [GLCall.deleteVertexArrays s1._vao], _vao := 0 }
    else s1
  if s2._texPixel ≠ 0 then
    { s2 with glCalls := s2.glCalls ++ [GLCall.deleteTextures s2._texPixel], _texPixel := 0 }
  else s2

/-- The device calls of one iteration of the batch loop of `renderBatch`. -/
def renderBatchCalls (shader : Nat) (ss : SamplerState) (batch : SpriteBatchCall) :
    List (GLCall F) :=
  [GLCall.activeTexture 0, GLCall.uniform1i shader "SBTex" 0,
   GLCall.bindTexture batch.textureID, GLCall.samplerSetObject ss 0,
   GLCall.drawArrays batch.indexOffset batch.indices]

/-- `SpriteBatch::renderBatch(mWorld, mCamera, ss, ds, rs, shader)`.  `_program` is the
static shader program shared by all batches; a null argument is `none`. -/
def SpriteBatch.renderBatch (_program : Nat) (s : SpriteBatch F) (mWorld mCamera : f32m4 F)
    (ss : Option SamplerState) (ds : Option DepthState) (rs : Option RasterizerState)
    (shader : Option Nat) : SpriteBatch F :=
  let ds1 := ds.getD DepthState.NONE
  let rs1 := rs.getD RasterizerState.CULL_NONE
  let ss1 := ss.getD SamplerState.LINEAR_WRAP
  let shader1 := shader.getD _program
  { s with
    glCalls := s.glCalls
      ++ [GLCall.depthStateSet ds1, GLCall.rasterizerStateSet rs1, GLCall.programUse shader1,
          GLCall.uniformMatrix4fv shader1 "World" mWorld,
          GLCall.uniformMatrix4fv shader1 "VP" mCamera, GLCall.bindVertexArray s._vao]
      ++ s._batches.flatMap (renderBatchCalls shader1 ss1)
      ++ [GLCall.bindVertexArray 0, GLCall.bindSampler 0 0, GLCall.programUnuse shader1] }

/-- `SpriteBatch::renderBatch(mWorld, screenSize, ss, ds, rs, shader)`. -/
def SpriteBatch.renderBatch_screenSize [DivisionRing F] (_program : Nat) (s : SpriteBatch F)
    (mWorld : f32m4 F) (screenSize : f32v2 F) (ss : Option SamplerState)
    (ds : Option DepthState) (rs : Option RasterizerState) (shader : Option Nat) :
    SpriteBatch F :=
  let mCamera : f32m4 F :=
    { c0 := { x := 2 / screenSize.x, y := 0, z := 0, w := 0 }
      c1 := { x := 0, y := -2 / screenSize.y, z := 0, w := 0 }
      c2 := { x := 0, y := 0, z := 1, w := 0 }
      c3 := { x := -1, y := 1, z := 0, w := 1 } }
  s.renderBatch _program mWorld mCamera ss ds rs shader

/-- `SpriteBatch::renderBatch(screenSize, ss, ds, rs, shader)`. -/
def SpriteBatch.renderBatch_identity [DivisionRing F] (_program : Nat) (s : SpriteBatch F)
    (screenSize : f32v2 F) (ss : Option SamplerState) (ds : Option DepthState)
    (rs : Option RasterizerState) (shader : Option Nat) : SpriteBatch F :=
  let mIdentity : f32m4 F :=
    { c0 := { x := 1, y := 0, z := 0, w := 0 }
      c1 := { x := 0, y := 1, z := 0, w := 0 }
      c2 := { x := 0, y := 0, z := 1, w := 0 }
      c3 := { x := 0, y := 0, z := 0, w := 1 } }
  s.renderBatch_screenSize _program mIdentity screenSize ss ds rs shader

/-- One call on a sprite batch: `begin`, one of the `draw` overloads, `end`, one of the
`renderBatch` overloads, or `dispose`. -/
inductive Op (F : Type) where
  | begin
  | draw (d : DrawCall F)
  | end' (ssm : SpriteSortMode)
  | renderBatch (mWorld mCamera : f32m4 F) (ss : Option SamplerState) (ds : Option DepthState)
      (rs : Option RasterizerState) (shader : Option Nat)
  | renderBatch_screenSize (mWorld : f32m4 F) (screenSize : f32v2 F)
      (ss : Option SamplerState) (ds : Option DepthState) (rs : Option RasterizerState)
      (shader : Option Nat)
  | renderBatch_identity (screenSize : f32v2 F) (ss : Option SamplerState)
      (ds : Option DepthState) (rs : Option RasterizerState) (shader : Option Nat)
  | dispose

/-- The effect of one call. -/
def SpriteBatch.call [LinearOrderedField F] (cosf sinf : F → F) (_program : Nat)
    (s : SpriteBatch F) : Op F → SpriteBatch F
  | .begin => s.begin
  | .draw d => s.drawCall cosf sinf d
  | .end' ssm => s.end' ssm
  | .renderBatch mWorld mCamera ss ds rs shader =>
      s.renderBatch _program mWorld mCamera ss ds rs shader
  | .renderBatch_screenSize mWorld screenSize ss ds rs shader =>
      s.renderBatch_screenSize _program mWorld screenSize ss ds rs shader
  | .renderBatch_identity screenSize ss ds rs shader =>
      s.renderBatch_identity _program screenSize ss ds rs shader
  | .dispose => s.dispose

/-- The effect of a sequence of calls, in order. -/
def SpriteBatch.calls [LinearOrderedField F] (cosf sinf : F → F) (_program : Nat)
    (s : SpriteBatch F) (ops : List (Op F)) : SpriteBatch F :=
  ops.foldl (SpriteBatch.call cosf sinf _program) s

/-- The texture argument `t` of a `draw` call. -/
def DrawCall.texture : DrawCall F → Nat
  | .rotated t _ _ _ _ _ _ _ _ => t
  | .pivoted t _ _ _ _ _ _ _ => t
  | .tiled t _ _ _ _ _ _ => t
  | .clipped t _ _ _ _ _ => t
  | .simple t _ _ _ _ => t

/-- The glyph that the call `d` appends when it is made on `s`: the last element of `_glyphs`
after the call. -/
def SpriteBatch.glyphOf [Ring F] (cosf sinf : F → F) (s : SpriteBatch F) (d : DrawCall F) :
    Option (SpriteGlyph F) :=
  (s.drawCall cosf sinf d)._glyphs.getLast?

/-- The point at pivot-relative coordinate `(cx, cy)`, turned about the pivot by the angle
whose cosine and sine are `cosr` and `sinr`, and moved to `position`:
`position + (cx·cos r − cy·sin r, cx·sin r + cy·cos r)`. -/
def rotatedCorner [Ring F] (cosr sinr : F) (position : f32v2 F) (cx cy : F) : f32v2 F :=
  { x := position.x + (cx * cosr - cy * sinr), y := position.y + (cx * sinr + cy * cosr) }

/-- The camera matrix the screen-size overload of `renderBatch` builds and hands to the
general overload. -/
def screenCamera [DivisionRing F] (screenSize : f32v2 F) : f32m4 F :=
  { c0 := { x := 2 / screenSize.x, y := 0, z := 0, w := 0 }
    c1 := { x := 0, y := -2 / screenSize.y, z := 0, w := 0 }
    c2 := { x := 0, y := 0, z := 1, w := 0 }
    c3 := { x := -1, y := 1, z := 0, w := 1 } }

/-- The product of a column-major matrix with a column vector (`m * v` in the shader):
`v.x` times the first column plus `v.y` times the second, and so on. -/
def mulVec [Ring F] (m : f32m4 F) (v : f32v4 F) : f32v4 F :=
  { x := m.c0.x * v.x + m.c1.x * v.y + m.c2.x * v.z + m.c3.x * v.w
    y := m.c0.y * v.x + m.c1.y * v.y + m.c2.y * v.z + m.c3.y * v.w
    z := m.c0.z * v.x + m.c1.z * v.y + m.c2.z * v.z + m.c3.z * v.w
    w := m.c0.w * v.x + m.c1.w * v.y + m.c2.w * v.z + m.c3.w * v.w }

/-- The draw calls of a device log, in order, each as `(texture bound when the call is
issued, first, count)`; `bound` is the texture bound before the log starts. -/
def boundDraws (bound : Option Nat) : List (GLCall F) → List (Option Nat × Int × Int)
  | [] => []
  | GLCall.bindTexture texture :: cs => boundDraws (some texture) cs
  | GLCall.drawArrays first count :: cs => (bound, first, count) :: boundDraws bound cs
  | _ :: cs => boundDraws bound cs

/-- Well-formedness of a batch list: it is empty, or its first descriptor starts at index 0
and every descriptor starts where the previous one stops. -/
def wellFormedBatches (bs : List SpriteBatchCall) : Prop :=
  bs = [] ∨ ((∃ b0 tl, bs = b0 :: tl ∧ b0.indexOffset = 0)
    ∧ ∀ (i : Nat) (h : i + 1 < bs.length),
        bs[i + 1].indexOffset = bs[i].indexOffset + bs[i].indices)

/-- Whether a call sequence follows the frame protocol: every `end` comes after a `begin`
with no other `end` in between.  `opened` tells whether such a `begin` is pending when the
sequence starts. -/
def framedCalls (opened : Bool) : List (Op F) → Bool
  | [] => true
  | Op.begin :: ops => framedCalls true ops
  | Op.end' _ :: ops => opened && framedCalls false ops
  | _ :: ops => framedCalls opened ops

/-- The state of the glyph loop of `generateBatches` on entry to the iterations over `todo`,
after the seed glyph `g0` and the glyphs `done` have been handled. -/
def SpriteBatch.loopAfter (s : SpriteBatch F) (g0 : SpriteGlyph F)
    (done : List (SpriteGlyph F)) : GenLoop F :=
  done.foldl GenLoop.step
    { call := { textureID := g0.textureID, indices := 6, indexOffset := 0 }
      _batches := s._batches
        ++ [{ textureID := g0.textureID, indices := 6, indexOffset := 0 }]
      _batchRecycler := s._batchRecycler.create
      _glyphRecycler := s._glyphRecycler.recycle g0
      verts := g0.sixVerts }

/-- Closed form of the glyph loop of `generateBatches` on the batch list: the descriptors the
loop leaves from the current descriptor `c` on, given the textures of the glyphs still to be
visited.  `foldl_step_batches` proves that the loop computes it. -/
def coalesceFrom (c : SpriteBatchCall) : List Nat → List SpriteBatchCall
  | [] => [c]
  | t :: ts =>
    if t ≠ c.textureID then
      c :: coalesceFrom
        { textureID := t, indices := 6, indexOffset := c.indexOffset + c.indices } ts
    else coalesceFrom { c with indices := c.indices + 6 } ts

/-- The maximal runs of equal consecutive values of a texture sequence, in order. -/
def maximalRuns (texs : List Nat) : List (List Nat) :=
  List.splitBy (fun a b => a == b) texs

/-- Descriptor `b` stands for the run `run`: the run starts with the texture of `b`, every
glyph of the run has that texture, and `b` counts six vertices per glyph of the run. -/
def describesRun (b : SpriteBatchCall) (run : List Nat) : Prop :=
  run.head? = some b.textureID ∧ (∀ t ∈ run, t = b.textureID)
    ∧ b.indices = 6 * (run.length : Int)

/-! ## The glyph loop of `generateBatches` -/

theorem maximalRuns_example :
    maximalRuns [1, 1, 2, 2, 2, 3, 2] = [[1, 1], [2, 2, 2], [3], [2]] := by
  decide

theorem foldl_step_batches (rest : List (SpriteGlyph F)) :
    ∀ (st : GenLoop F) (closed : List SpriteBatchCall), st._batches = closed ++ [st.call] →
      (rest.foldl GenLoop.step st)._batches
        = closed ++ coalesceFrom st.call (rest.map (fun g => g.textureID)) := by
  induction rest with
  | nil => intro st closed h; simpa [coalesceFrom] using h
  | cons g rest ih =>
    intro st closed h
    simp only [List.foldl_cons, List.map_cons]
    by_cases ht : g.textureID = st.call.textureID
    · have hstep : (st.step g)._batches = closed ++ [(st.step g).call] := by
        simp [GenLoop.step, SpriteBatchCall.append, ht, h]
      have hcall : (st.step g).call = { st.call with indices := st.call.indices + 6 } := by
        simp [GenLoop.step, SpriteBatchCall.append, ht]
      rw [ih _ _ hstep, hcall]
      simp [coalesceFrom, ht]
    · have hstep : (st.step g)._batches = (closed ++ [st.call]) ++ [(st.step g).call] := by
        simp [GenLoop.step, SpriteBatchCall.append, SpriteBatchCall.set, ht, h]
      have hcall : (st.step g).call
          = { textureID := g.textureID, indices := 6,
              indexOffset := st.call.indexOffset + st.call.indices } := by
        simp [GenLoop.step, SpriteBatchCall.append, SpriteBatchCall.set, ht]
      rw [ih _ _ hstep, hcall]
      simp [coalesceFrom, ht]

theorem foldl_step_verts (rest : List (SpriteGlyph F)) :
    ∀ st : GenLoop F,
      (rest.foldl GenLoop.step st).verts = st.verts ++ rest.flatMap SpriteGlyph.sixVerts := by
  induction rest with
  | nil => intro st; simp
  | cons g rest ih =>
    intro st
    simp only [List.foldl_cons, List.flatMap_cons]
    rw [ih]
    simp [GenLoop.step]

theorem generateBatches_nil (s : SpriteBatch F) (h : s._glyphs = []) :
    s.generateBatches = s := by
  unfold SpriteBatch.generateBatches
  split
  · rfl
  · rename_i g0 rest hg; rw [h] at hg; cases hg

theorem generateBatches_batches (s : SpriteBatch F) (g0 : SpriteGlyph F)
    (rest : List (SpriteGlyph F)) (h : s._glyphs = g0 :: rest) :
    s.generateBatches._batches
      = s._batches ++ coalesceFrom { textureID := g0.textureID, indices := 6, indexOffset := 0 }
          (rest.map (fun g => g.textureID)) := by
  unfold SpriteBatch.generateBatches
  split
  · rename_i hg; rw [h] at hg; cases hg
  · rename_i a l hg
    rw [h] at hg
    cases hg
    simp only []
    rw [foldl_step_batches rest _ s._batches rfl]

theorem generateBatches_glCalls (s : SpriteBatch F) (h : s._glyphs ≠ []) :
    s.generateBatches.glCalls
      = s.glCalls ++ [GLCall.bindBuffer s._vbo]
        ++ (if s._glyphs.length > s._glyphCapacity
            then [GLCall.bufferData (s._glyphs.length * 2 * 6) s._bufUsage] else [])
        ++ [GLCall.bufferSubData 0 (s._glyphs.length * 6)
              (s._glyphs.flatMap SpriteGlyph.sixVerts), GLCall.bindBuffer 0] := by
  unfold SpriteBatch.generateBatches
  split
  · rename_i hg; exact absurd hg h
  · rename_i a l hg
    simp only []
    rw [foldl_step_verts, hg]
    by_cases hc : s._glyphCapacity < l.length + 1 <;> simp [hc]

/-! ## Properties of the closed form -/

theorem coalesceFrom_sum (ts : List Nat) :
    ∀ c : SpriteBatchCall,
      ((coalesceFrom c ts).map (fun b => b.indices)).sum = c.indices + 6 * (ts.length : Int) := by
  induction ts with
  | nil => intro c; simp [coalesceFrom]
  | cons t ts ih =>
    intro c
    by_cases ht : t = c.textureID
    · simp only [coalesceFrom, ht, ne_eq, not_true_eq_false, if_false]
      rw [ih]
      simp only [List.length_cons]
      push_cast
      ring
    · simp only [coalesceFrom, ht, ne_eq, not_false_eq_true, if_true, List.map_cons,
        List.sum_cons]
      rw [ih]
      simp only [List.length_cons]
      push_cast
      ring

theorem coalesceFrom_head (ts : List Nat) :
    ∀ c : SpriteBatchCall, ∃ hd tl, coalesceFrom c ts = hd :: tl
      ∧ hd.indexOffset = c.indexOffset ∧ hd.textureID = c.textureID := by
  induction ts with
  | nil => intro c; exact ⟨c, [], by simp [coalesceFrom], rfl, rfl⟩
  | cons t ts ih =>
    intro c
    by_cases ht : t = c.textureID
    · obtain ⟨hd, tl, h1, h2, h3⟩ := ih { c with indices := c.indices + 6 }
      exact ⟨hd, tl, by simp [coalesceFrom, ht, h1], h2, h3⟩
    · exact ⟨c, coalesceFrom
        { textureID := t, indices := 6, indexOffset := c.indexOffset + c.indices } ts,
        by simp [coalesceFrom, ht], rfl, rfl⟩

theorem coalesceFrom_chain (ts : List Nat) :
    ∀ c : SpriteBatchCall,
      List.Chain' (fun a b : SpriteBatchCall => b.indexOffset = a.indexOffset + a.indices)
        (coalesceFrom c ts) := by
  induction ts with
  | nil => intro c; simp [coalesceFrom]
  | cons t ts ih =>
    intro c
    by_cases ht : t = c.textureID
    · simpa [coalesceFrom, ht] using ih { c with indices := c.indices + 6 }
    · simp only [coalesceFrom, ht, ne_eq, not_false_eq_true, if_true]
      obtain ⟨hd, tl, h1, h2, _⟩ := coalesceFrom_head ts
        { textureID := t, indices := 6, indexOffset := c.indexOffset + c.indices }
      have hch := ih { textureID := t, indices := 6, indexOffset := c.indexOffset + c.indices }
      rw [h1] at hch ⊢
      exact List.chain'_cons.mpr ⟨h2, hch⟩

theorem splitBy_loop_acc {α : Type} (r : α → α → Bool) (l : List α) :
    ∀ (a : α) (g : List α) (gs : List (List α)),
      List.splitBy.loop r l a g gs = gs.reverse ++ List.splitBy.loop r l a g [] := by
  induction l with
  | nil => intro a g gs; simp [List.splitBy.loop]
  | cons b l ih =>
    intro a g gs
    simp only [List.splitBy.loop]
    cases r a b
    · simp only []
      rw [ih b [] ((a :: g).reverse :: gs), ih b [] [(a :: g).reverse]]
      simp
    · simp only []
      exact ih b (a :: g) gs

theorem describesRun_closed (c : SpriteBatchCall) (g : List Nat)
    (hi : c.indices = 6 * ((g.length : Int) + 1)) (hg : ∀ t ∈ g, t = c.textureID) :
    describesRun c (c.textureID :: g).reverse := by
  have hall : ∀ t ∈ (c.textureID :: g).reverse, t = c.textureID := by
    intro t ht
    simp only [List.mem_reverse, List.mem_cons] at ht
    rcases ht with ht | ht
    · exact ht
    · exact hg t ht
  refine ⟨?_, hall, ?_⟩
  · cases hr : (c.textureID :: g).reverse with
    | nil => simp at hr
    | cons a l =>
      have : a = c.textureID := hall a (by rw [hr]; simp)
      simp [this]
  · simp only [List.length_reverse, List.length_cons]
    push_cast
    exact hi

theorem coalesceFrom_runs (ts : List Nat) :
    ∀ (c : SpriteBatchCall) (g : List Nat), c.indices = 6 * ((g.length : Int) + 1) →
      (∀ t ∈ g, t = c.textureID) →
      List.Forall₂ describesRun (coalesceFrom c ts)
        (List.splitBy.loop (fun a b => a == b) ts c.textureID g []) := by
  induction ts with
  | nil =>
    intro c g hi hg
    simp only [coalesceFrom, List.splitBy.loop, List.reverse_nil, List.cons_append,
      List.nil_append, List.reverse_cons, List.forall₂_cons, List.forall₂_nil_left_iff,
      and_true]
    simpa using describesRun_closed c g hi hg
  | cons t ts ih =>
    intro c g hi hg
    by_cases ht : t = c.textureID
    · simp only [coalesceFrom, ht, ne_eq, not_true_eq_false, if_false, List.splitBy.loop]
      have hb2 : (c.textureID == c.textureID) = true := by simp
      rw [hb2]
      simp only []
      exact ih { c with indices := c.indices + 6 } (c.textureID :: g)
        (by simp only [List.length_cons]; push_cast; rw [hi]; ring)
        (by intro u hu
            simp only [List.mem_cons] at hu
            rcases hu with hu | hu
            · exact hu
            · exact hg u hu)
    · have hb : (c.textureID == t) = false := by
        simp only [beq_eq_false_iff_ne, ne_eq]
        exact fun h => ht h.symm
      simp only [coalesceFrom, ht, ne_eq, not_false_eq_true, if_true, List.splitBy.loop, hb]
      rw [splitBy_loop_acc]
      simp only [List.reverse_cons, List.reverse_nil, List.nil_append, List.singleton_append,
        List.forall₂_cons]
      refine ⟨?_, ?_⟩
      · simpa using describesRun_closed c g hi hg
      · exact ih { textureID := t, indices := 6, indexOffset := c.indexOffset + c.indices } []
          (by simp) (by simp)

theorem generateBatches_runs (s : SpriteBatch F) (hb : s._batches = []) (hg : s._glyphs ≠ []) :
    List.Forall₂ describesRun s.generateBatches._batches
      (maximalRuns (s._glyphs.map (fun g => g.textureID))) := by
  obtain ⟨g0, rest, h⟩ := List.exists_cons_of_ne_nil hg
  rw [generateBatches_batches s g0 rest h, hb, h]
  simp only [List.nil_append, List.map_cons, maximalRuns, List.splitBy]
  exact coalesceFrom_runs _ { textureID := g0.textureID, indices := 6, indexOffset := 0 } []
    (by simp) (by simp)

/-! ## Sorting and the frame operations -/

theorem stable_insert_perm {α : Type} (comp : α → α → Bool) (x : α) (l : List α) :
    (stable_insert comp x l).Perm (x :: l) := by
  induction l with
  | nil => simp [stable_insert]
  | cons y ys ih =>
    simp only [stable_insert]
    split
    · exact (List.Perm.cons y ih).trans (List.Perm.swap x y ys)
    · exact List.Perm.refl _

theorem stable_sort_perm {α : Type} (comp : α → α → Bool) (l : List α) :
    (stable_sort comp l).Perm l := by
  induction l with
  | nil => simp [stable_sort]
  | cons x xs ih =>
    simp only [stable_sort]
    exact (stable_insert_perm comp x _).trans (List.Perm.cons x ih)

theorem sortGlyphs_perm [LinearOrder F] (ssm : SpriteSortMode) (s : SpriteBatch F) :
    (s.sortGlyphs ssm)._glyphs.Perm s._glyphs := by
  unfold SpriteBatch.sortGlyphs
  split
  · exact List.Perm.refl _
  · cases ssm <;> first | exact stable_sort_perm _ _ | exact List.Perm.refl _

theorem sortGlyphs_batches [LinearOrder F] (ssm : SpriteSortMode) (s : SpriteBatch F) :
    (s.sortGlyphs ssm)._batches = s._batches := by
  unfold SpriteBatch.sortGlyphs
  split
  · rfl
  · cases ssm <;> rfl

theorem sortGlyphs_ne_nil [LinearOrder F] (ssm : SpriteSortMode) (s : SpriteBatch F)
    (hg : s._glyphs ≠ []) : (s.sortGlyphs ssm)._glyphs ≠ [] := by
  intro h
  have := (sortGlyphs_perm ssm s).length_eq
  rw [h] at this
  exact hg (List.length_eq_zero.mp this.symm)

theorem begin_glyphs (s : SpriteBatch F) : s.begin._glyphs = [] := by
  unfold SpriteBatch.begin
  by_cases h : s._glyphs.length > 0
  · simp [h]
  · have : s._glyphs = [] := List.length_eq_zero.mp (by omega)
    simp [this]

theorem begin_batches (s : SpriteBatch F) : s.begin._batches = [] := by
  unfold SpriteBatch.begin
  rfl

theorem drawCall_batches [Ring F] (cosf sinf : F → F) (s : SpriteBatch F) (d : DrawCall F) :
    (s.drawCall cosf sinf d)._batches = s._batches := by
  cases d <;> rfl

theorem drawCall_glyphs_length [Ring F] (cosf sinf : F → F) (s : SpriteBatch F)
    (d : DrawCall F) : (s.drawCall cosf sinf d)._glyphs.length = s._glyphs.length + 1 := by
  cases d <;>
    simp [SpriteBatch.drawCall, SpriteBatch.draw, SpriteBatch.draw_offset,
      SpriteBatch.draw_tiling, SpriteBatch.draw_uvRect, SpriteBatch.draw_simple,
      SpriteBatch.pushGlyph]

theorem drawCalls_batches [Ring F] (cosf sinf : F → F) (ds : List (DrawCall F)) :
    ∀ s : SpriteBatch F, (s.drawCalls cosf sinf ds)._batches = s._batches := by
  induction ds with
  | nil => intro s; rfl
  | cons d ds ih =>
    intro s
    simp only [SpriteBatch.drawCalls, List.foldl_cons] at ih ⊢
    rw [ih, drawCall_batches]

theorem drawCalls_glyphs_length [Ring F] (cosf sinf : F → F) (ds : List (DrawCall F)) :
    ∀ s : SpriteBatch F,
      (s.drawCalls cosf sinf ds)._glyphs.length = s._glyphs.length + ds.length := by
  induction ds with
  | nil => intro s; rfl
  | cons d ds ih =>
    intro s
    simp only [SpriteBatch.drawCalls, List.foldl_cons, List.length_cons] at ih ⊢
    rw [ih, drawCall_glyphs_length]
    omega

/-- After `begin()` and the draw calls `ds` the batch list is empty and the accumulator holds
one glyph per call. -/
theorem frame_accumulated [Ring F] (cosf sinf : F → F) (s0 : SpriteBatch F)
    (ds : List (DrawCall F)) :
    (s0.begin.drawCalls cosf sinf ds)._batches = []
      ∧ (s0.begin.drawCalls cosf sinf ds)._glyphs.length = ds.length := by
  rw [drawCalls_batches, drawCalls_glyphs_length, begin_batches, begin_glyphs]
  simp

theorem end_batches_cons [LinearOrder F] (ssm : SpriteSortMode) (s : SpriteBatch F)
    (hb : s._batches = []) (g0 : SpriteGlyph F) (rest : List (SpriteGlyph F))
    (h : (s.sortGlyphs ssm)._glyphs = g0 :: rest) :
    (s.end' ssm)._batches
      = coalesceFrom { textureID := g0.textureID, indices := 6, indexOffset := 0 }
          (rest.map (fun g => g.textureID)) := by
  unfold SpriteBatch.end'
  rw [generateBatches_batches _ g0 rest h, sortGlyphs_batches, hb]
  rfl

theorem end_nil [LinearOrder F] (ssm : SpriteSortMode) (s : SpriteBatch F)
    (h : s._glyphs = []) : s.end' ssm = s := by
  have hs : s.sortGlyphs ssm = s := by
    unfold SpriteBatch.sortGlyphs
    simp [h]
  unfold SpriteBatch.end'
  rw [hs, generateBatches_nil s h]

theorem flatMap_sixVerts_length (gs : List (SpriteGlyph F)) :
    (gs.flatMap SpriteGlyph.sixVerts).length = 6 * gs.length := by
  induction gs with
  | nil => rfl
  | cons g gs ih =>
    simp only [List.flatMap_cons, List.length_append, ih, List.length_cons]
    simp only [SpriteGlyph.sixVerts, List.length_cons, List.length_nil]
    omega

theorem flatMap_sixVerts_block (gs : List (SpriteGlyph F)) :
    ∀ (i : Nat) (hi : i < gs.length),
      ((gs.flatMap SpriteGlyph.sixVerts).drop (6 * i)).take 6 = gs[i].sixVerts := by
  induction gs with
  | nil => intro i hi; simp at hi
  | cons g gs ih =>
    intro i hi
    have hlen : g.sixVerts.length = 6 := rfl
    cases i with
    | zero =>
      simp only [Nat.mul_zero, List.drop_zero, List.flatMap_cons, List.getElem_cons_zero]
      rw [List.take_append_of_le_length (by omega), List.take_of_length_le (by omega)]
    | succ i =>
      simp only [List.flatMap_cons, List.getElem_cons_succ]
      have h6 : 6 * (i + 1) = g.sixVerts.length + 6 * i := by omega
      rw [h6, List.drop_append]
      exact ih i (by simpa using hi)

/-! ## Batch coalescing (C1 to C5) -/

/-- C1: on a batch whose batch list is empty (as `begin()` leaves it) and whose accumulated
glyph sequence is not empty, `end(ssm)` leaves as many batch descriptors as the textures of the
post-sort glyph sequence have maximal runs of equal consecutive values. -/
theorem end_batch_count_eq_maximal_runs [LinearOrder F] (ssm : SpriteSortMode)
    (s : SpriteBatch F) (hb : s._batches = []) (hg : s._glyphs ≠ []) :
    (s.end' ssm)._batches.length
      = (maximalRuns ((s.sortGlyphs ssm)._glyphs.map (fun g => g.textureID))).length := by
  unfold SpriteBatch.end'
  exact (generateBatches_runs _ (by rw [sortGlyphs_batches]; exact hb)
    (sortGlyphs_ne_nil ssm s hg)).length_eq

theorem end_batch_count_eq_maximal_runs_witness :
    frame557._batches = [] ∧ frame557._glyphs ≠ [] ∧
      (frame557.end' SpriteSortMode.TEXTURE)._batches.length
        = (maximalRuns ((frame557.sortGlyphs SpriteSortMode.TEXTURE)._glyphs.map
            (fun g => g.textureID))).length :=
  ⟨rfl, by simp [frame557],
    end_batch_count_eq_maximal_runs SpriteSortMode.TEXTURE frame557 rfl (by simp [frame557])⟩

/-- C2: for a non-empty post-sort glyph sequence and an empty batch list, the batch list that
`generateBatches` produces is the run-length encoding of the texture sequence: descriptor `k`
carries the texture of the `k`-th maximal run and `6 * (length of the run)` indices, in glyph
order.  Scenario: glyph textures `[5, 5, 7]` under the Texture policy give exactly
`{tex 5, offset 0, count 12}, {tex 7, offset 12, count 6}`. -/
theorem generateBatches_run_length_encoding [LinearOrder F] (s : SpriteBatch F)
    (hb : s._batches = []) (hg : s._glyphs ≠ []) :
    List.Forall₂ describesRun s.generateBatches._batches
        (maximalRuns (s._glyphs.map (fun g => g.textureID)))
      ∧ (s._glyphs.map (fun g => g.textureID) = [5, 5, 7] →
          (s.end' SpriteSortMode.TEXTURE)._batches
            = [{ textureID := 5, indices := 12, indexOffset := 0 },
               { textureID := 7, indices := 6, indexOffset := 12 }]) := by
  refine ⟨generateBatches_runs s hb hg, ?_⟩
  intro h
  rcases hs : s._glyphs with _ | ⟨a, _ | ⟨b, _ | ⟨c, _ | ⟨d, l⟩⟩⟩⟩ <;> rw [hs] at h <;>
    simp only [List.map_nil, List.map_cons, List.cons.injEq, and_true, reduceCtorEq,
      and_false, List.nil_eq] at h
  obtain ⟨ha, hb5, hc⟩ := h
  have hsort : (s.sortGlyphs SpriteSortMode.TEXTURE)._glyphs = [a, b, c] := by
    simp [SpriteBatch.sortGlyphs, hs, stable_sort, stable_insert, SSMTexture, ha, hb5, hc]
  rw [end_batches_cons SpriteSortMode.TEXTURE s hb a [b, c] hsort]
  simp [coalesceFrom, ha, hb5, hc]

theorem generateBatches_run_length_encoding_witness :
    frame557._batches = [] ∧ frame557._glyphs ≠ [] ∧
      frame557._glyphs.map (fun g => g.textureID) = [5, 5, 7] ∧
      List.Forall₂ describesRun frame557.generateBatches._batches
        (maximalRuns (frame557._glyphs.map (fun g => g.textureID))) ∧
      (frame557.end' SpriteSortMode.TEXTURE)._batches
        = [{ textureID := 5, indices := 12, indexOffset := 0 },
           { textureID := 7, indices := 6, indexOffset := 12 }] :=
  ⟨rfl, by simp [frame557], rfl,
    (generateBatches_run_length_encoding frame557 rfl (by simp [frame557])).1,
    (generateBatches_run_length_encoding frame557 rfl (by simp [frame557])).2 rfl⟩

/-- C3: for every frame `begin()`, then the draw calls `ds` (any overloads), then `end(ssm)`,
the `indices` of the batch descriptors add up to `6 * ds.length`.  (This also holds for the
empty frame, with no descriptor and no draw call.) -/
theorem frame_vertex_count_conserved [LinearOrderedRing F] (cosf sinf : F → F)
    (s0 : SpriteBatch F) (ds : List (DrawCall F)) (ssm : SpriteSortMode) :
    (((s0.begin.drawCalls cosf sinf ds).end' ssm)._batches.map (fun b => b.indices)).sum
      = 6 * (ds.length : Int) := by
  obtain ⟨hb, hlen⟩ := frame_accumulated cosf sinf s0 ds
  have hperm := (sortGlyphs_perm ssm (s0.begin.drawCalls cosf sinf ds)).length_eq
  rcases hs : ((s0.begin.drawCalls cosf sinf ds).sortGlyphs ssm)._glyphs with _ | ⟨g0, rest⟩
  · rw [hs] at hperm
    have hnil : (s0.begin.drawCalls cosf sinf ds)._glyphs = [] :=
      List.length_eq_zero.mp hperm.symm
    rw [end_nil ssm _ hnil, hb]
    rw [hnil] at hlen
    simp only [List.length_nil] at hlen
    simp [← hlen]
  · rw [end_batches_cons ssm _ hb g0 rest hs, coalesceFrom_sum]
    rw [hs, hlen] at hperm
    simp only [List.length_cons, List.length_map] at hperm ⊢
    rw [← hperm]
    push_cast
    ring

/-- C4: for every frame `begin()`, then `n ≥ 1` draw calls, then `end(ssm)`, the first batch
descriptor starts at index 0 and every descriptor starts where the previous one stops:
`batch[i+1].indexOffset = batch[i].indexOffset + batch[i].indices`. -/
theorem frame_offsets_contiguous [LinearOrderedRing F] (cosf sinf : F → F)
    (s0 : SpriteBatch F) (ds : List (DrawCall F)) (ssm : SpriteSortMode)
    (hn : 1 ≤ ds.length) :
    (∃ b0 bs, ((s0.begin.drawCalls cosf sinf ds).end' ssm)._batches = b0 :: bs
        ∧ b0.indexOffset = 0)
      ∧ ∀ (i : Nat) (h : i + 1 < ((s0.begin.drawCalls cosf sinf ds).end' ssm)._batches.length),
          (((s0.begin.drawCalls cosf sinf ds).end' ssm)._batches[i + 1]).indexOffset
            = (((s0.begin.drawCalls cosf sinf ds).end' ssm)._batches[i]).indexOffset
              + (((s0.begin.drawCalls cosf sinf ds).end' ssm)._batches[i]).indices := by
  obtain ⟨hb, hlen⟩ := frame_accumulated cosf sinf s0 ds
  have hperm := (sortGlyphs_perm ssm (s0.begin.drawCalls cosf sinf ds)).length_eq
  rcases hs : ((s0.begin.drawCalls cosf sinf ds).sortGlyphs ssm)._glyphs with _ | ⟨g0, rest⟩
  · rw [hs, hlen] at hperm
    simp only [List.length_nil] at hperm
    omega
  · have hE := end_batches_cons ssm _ hb g0 rest hs
    constructor
    · obtain ⟨hd, tl, h1, h2, _⟩ := coalesceFrom_head (rest.map (fun g => g.textureID))
        { textureID := g0.textureID, indices := 6, indexOffset := 0 }
      exact ⟨hd, tl, by rw [hE, h1], h2⟩
    · have hch := coalesceFrom_chain (rest.map (fun g => g.textureID))
        { textureID := g0.textureID, indices := 6, indexOffset := 0 }
      rw [← hE] at hch
      intro i h
      have := List.chain'_iff_get.mp hch i (by omega)
      simpa using this

/-- The frame `begin()`, four draw calls with textures 7, 5, 5, 9, `end(Texture)` has three
descriptors, `{5, 12, 0}, {7, 6, 12}, {9, 6, 18}`; the theorem applies to it, and at `i = 0`
and `i = 1` it reads `12 = 0 + 12` and `18 = 12 + 6`. -/
theorem frame_offsets_contiguous_witness :
    1 ≤ draws7559.length
      ∧ (((SpriteBatch.new ℚ true 9).begin.drawCalls id id draws7559).end'
            SpriteSortMode.TEXTURE)._batches
          = [{ textureID := 5, indices := 12, indexOffset := 0 },
             { textureID := 7, indices := 6, indexOffset := 12 },
             { textureID := 9, indices := 6, indexOffset := 18 }]
      ∧ (∃ b0 bs, (((SpriteBatch.new ℚ true 9).begin.drawCalls id id draws7559).end'
              SpriteSortMode.TEXTURE)._batches = b0 :: bs ∧ b0.indexOffset = 0)
      ∧ (∀ (i : Nat)
          (h : i + 1 < (((SpriteBatch.new ℚ true 9).begin.drawCalls id id draws7559).end'
              SpriteSortMode.TEXTURE)._batches.length),
          ((((SpriteBatch.new ℚ true 9).begin.drawCalls id id draws7559).end'
              SpriteSortMode.TEXTURE)._batches[i + 1]).indexOffset
            = ((((SpriteBatch.new ℚ true 9).begin.drawCalls id id draws7559).end'
                SpriteSortMode.TEXTURE)._batches[i]).indexOffset
              + ((((SpriteBatch.new ℚ true 9).begin.drawCalls id id draws7559).end'
                SpriteSortMode.TEXTURE)._batches[i]).indices)
      ∧ (1 + 1 < (((SpriteBatch.new ℚ true 9).begin.drawCalls id id draws7559).end'
            SpriteSortMode.TEXTURE)._batches.length)
      ∧ (12 : Int) = 0 + 12 ∧ (18 : Int) = 12 + 6 :=
  ⟨by simp [draws7559], rfl,
    (frame_offsets_contiguous id id (SpriteBatch.new ℚ true 9) draws7559
      SpriteSortMode.TEXTURE (by simp [draws7559])).1,
    (frame_offsets_contiguous id id (SpriteBatch.new ℚ true 9) draws7559
      SpriteSortMode.TEXTURE (by simp [draws7559])).2,
    by decide,
    (frame_offsets_contiguous id id (SpriteBatch.new ℚ true 9) draws7559
      SpriteSortMode.TEXTURE (by simp [draws7559])).2 0 (by decide),
    (frame_offsets_contiguous id id (SpriteBatch.new ℚ true 9) draws7559
      SpriteSortMode.TEXTURE (by simp [draws7559])).2 1 (by decide)⟩

/-- C5: for a non-empty post-sort glyph sequence `g[0..n-1]`, `generateBatches` uploads (its
only `glBufferSubData` call, at offset 0) a vertex array of exactly `6 * n` vertices whose
entries `6i .. 6i+5` are `g[i].vtl, g[i].vbl, g[i].vbr, g[i].vbr, g[i].vtr, g[i].vtl`. -/
theorem generateBatches_vertex_array (s : SpriteBatch F) (hg : s._glyphs ≠ []) :
    ∃ (pre : List (GLCall F)) (verts : List (VertexSpriteBatch F)),
      s.generateBatches.glCalls
          = s.glCalls ++ pre
            ++ [GLCall.bufferSubData 0 (6 * s._glyphs.length) verts, GLCall.bindBuffer 0]
        ∧ (∀ c ∈ pre, ∀ first n data, c ≠ GLCall.bufferSubData first n data)
        ∧ verts.length = 6 * s._glyphs.length
        ∧ ∀ (i : Nat) (hi : i < s._glyphs.length),
            (verts.drop (6 * i)).take 6
              = [s._glyphs[i].vtl, s._glyphs[i].vbl, s._glyphs[i].vbr, s._glyphs[i].vbr,
                 s._glyphs[i].vtr, s._glyphs[i].vtl] := by
  refine ⟨[GLCall.bindBuffer s._vbo]
      ++ (if s._glyphs.length > s._glyphCapacity
          then [GLCall.bufferData (s._glyphs.length * 2 * 6) s._bufUsage] else []),
    s._glyphs.flatMap SpriteGlyph.sixVerts, ?_, ?_, flatMap_sixVerts_length _, ?_⟩
  · rw [generateBatches_glCalls s hg, Nat.mul_comm 6]
    simp
  · intro c hc first n data
    simp only [List.mem_append, List.mem_singleton] at hc
    rcases hc with hc | hc
    · rw [hc]; exact fun h => GLCall.noConfusion h
    · split at hc
      · simp only [List.mem_singleton] at hc
        rw [hc]; exact fun h => GLCall.noConfusion h
      · simp at hc
  · intro i hi
    exact flatMap_sixVerts_block s._glyphs i hi

theorem generateBatches_vertex_array_witness :
    frame557._glyphs ≠ [] ∧
    ∃ (pre : List (GLCall ℚ)) (verts : List (VertexSpriteBatch ℚ)),
      frame557.generateBatches.glCalls
          = frame557.glCalls ++ pre
            ++ [GLCall.bufferSubData 0 (6 * frame557._glyphs.length) verts, GLCall.bindBuffer 0]
        ∧ (∀ c ∈ pre, ∀ first n data, c ≠ GLCall.bufferSubData first n data)
        ∧ verts.length = 6 * frame557._glyphs.length
        ∧ ∀ (i : Nat) (hi : i < frame557._glyphs.length),
            (verts.drop (6 * i)).take 6
              = [frame557._glyphs[i].vtl, frame557._glyphs[i].vbl, frame557._glyphs[i].vbr,
                 frame557._glyphs[i].vbr, frame557._glyphs[i].vtr, frame557._glyphs[i].vtl] :=
  ⟨by simp [frame557], generateBatches_vertex_array frame557 (by simp [frame557])⟩

/-! ## The stable sort -/

theorem stable_insert_sorted {α K : Type} [LinearOrder K] (comp : α → α → Bool) (key : α → K)
    (hcomp : ∀ a b, comp a b = true ↔ key a < key b) (x : α) (l : List α)
    (hl : l.Pairwise (fun a b => key a ≤ key b)) :
    (stable_insert comp x l).Pairwise (fun a b => key a ≤ key b) := by
  induction l with
  | nil => simp [stable_insert]
  | cons y ys ih =>
    rw [List.pairwise_cons] at hl
    simp only [stable_insert]
    split
    · rename_i hc
      rw [List.pairwise_cons]
      refine ⟨?_, ih hl.2⟩
      intro z hz
      have hz2 : z ∈ x :: ys := (stable_insert_perm comp x ys).mem_iff.mp hz
      rcases List.mem_cons.mp hz2 with hz3 | hz3
      · rw [hz3]; exact le_of_lt ((hcomp y x).mp hc)
      · exact hl.1 z hz3
    · rename_i hc
      have hxy : key x ≤ key y := not_lt.mp (fun h => hc ((hcomp y x).mpr h))
      rw [List.pairwise_cons]
      refine ⟨?_, List.pairwise_cons.mpr hl⟩
      intro z hz
      rcases List.mem_cons.mp hz with hz3 | hz3
      · rw [hz3]; exact hxy
      · exact le_trans hxy (hl.1 z hz3)

theorem stable_sort_sorted {α K : Type} [LinearOrder K] (comp : α → α → Bool) (key : α → K)
    (hcomp : ∀ a b, comp a b = true ↔ key a < key b) (l : List α) :
    (stable_sort comp l).Pairwise (fun a b => key a ≤ key b) := by
  induction l with
  | nil => simp [stable_sort]
  | cons x xs ih => exact stable_insert_sorted comp key hcomp x _ ih

theorem stable_insert_filter {α K : Type} [LinearOrder K] (comp : α → α → Bool) (key : α → K)
    (hcomp : ∀ a b, comp a b = true ↔ key a < key b) (k : K) (x : α) (l : List α) :
    (stable_insert comp x l).filter (fun a => decide (key a = k))
      = (x :: l).filter (fun a => decide (key a = k)) := by
  induction l with
  | nil => simp [stable_insert]
  | cons y ys ih =>
    simp only [stable_insert]
    split
    · rename_i hc
      have hlt : key y < key x := (hcomp y x).mp hc
      by_cases hx : key x = k
      · have hy : key y ≠ k := fun h => by rw [h, hx] at hlt; exact lt_irrefl _ hlt
        rw [List.filter_cons_of_neg (by simpa using hy), ih]
        simp [List.filter_cons, hx, hy]
      · rw [List.filter_cons, ih]
        simp [List.filter_cons, hx]
    · rfl

theorem stable_sort_filter {α K : Type} [LinearOrder K] (comp : α → α → Bool) (key : α → K)
    (hcomp : ∀ a b, comp a b = true ↔ key a < key b) (k : K) (l : List α) :
    (stable_sort comp l).filter (fun a => decide (key a = k))
      = l.filter (fun a => decide (key a = k)) := by
  induction l with
  | nil => simp [stable_sort]
  | cons x xs ih =>
    simp only [stable_sort]
    rw [stable_insert_filter comp key hcomp, List.filter_cons, ih, List.filter_cons]

theorem SSMTexture_iff (a b : SpriteGlyph F) :
    SSMTexture a b = true ↔ a.textureID < b.textureID := by
  simp [SSMTexture]

theorem SSMFrontToBack_iff [LinearOrder F] (a b : SpriteGlyph F) :
    SSMFrontToBack a b = true ↔ a.depth < b.depth := by
  simp [SSMFrontToBack]

theorem SSMBackToFront_iff [LinearOrder F] (a b : SpriteGlyph F) :
    SSMBackToFront a b = true ↔ OrderDual.toDual a.depth < OrderDual.toDual b.depth := by
  simp [SSMBackToFront]

theorem sortGlyphs_texture_glyphs [LinearOrder F] (s : SpriteBatch F) :
    (s.sortGlyphs SpriteSortMode.TEXTURE)._glyphs = stable_sort SSMTexture s._glyphs := by
  unfold SpriteBatch.sortGlyphs
  split
  · rename_i h
    have : s._glyphs = [] := List.length_eq_zero.mp (by omega)
    simp [this, stable_sort]
  · rfl

theorem sortGlyphs_frontToBack_glyphs [LinearOrder F] (s : SpriteBatch F) :
    (s.sortGlyphs SpriteSortMode.FRONT_TO_BACK)._glyphs
      = stable_sort SSMFrontToBack s._glyphs := by
  unfold SpriteBatch.sortGlyphs
  split
  · rename_i h
    have : s._glyphs = [] := List.length_eq_zero.mp (by omega)
    simp [this, stable_sort]
  · rfl

theorem sortGlyphs_backToFront_glyphs [LinearOrder F] (s : SpriteBatch F) :
    (s.sortGlyphs SpriteSortMode.BACK_TO_FRONT)._glyphs
      = stable_sort SSMBackToFront s._glyphs := by
  unfold SpriteBatch.sortGlyphs
  split
  · rename_i h
    have : s._glyphs = [] := List.length_eq_zero.mp (by omega)
    simp [this, stable_sort]
  · rfl

theorem coalesceFrom_length_sorted (ts : List Nat) :
    ∀ c : SpriteBatchCall, (c.textureID :: ts).Pairwise (fun a b => a ≤ b) →
      (coalesceFrom c ts).length = (c.textureID :: ts).dedup.length := by
  induction ts with
  | nil => intro c _; simp [coalesceFrom]
  | cons t ts ih =>
    intro c hs
    rw [List.pairwise_cons] at hs
    by_cases ht : t = c.textureID
    · simp only [coalesceFrom, ht, ne_eq, not_true_eq_false, if_false]
      rw [ih { c with indices := c.indices + 6 } (by rw [← ht]; exact hs.2)]
      rw [List.dedup_cons_of_mem (a := c.textureID) (l := c.textureID :: ts) (by simp)]
    · simp only [coalesceFrom, ht, ne_eq, not_false_eq_true, if_true, List.length_cons]
      rw [ih { textureID := t, indices := 6, indexOffset := c.indexOffset + c.indices } hs.2]
      have hnot : c.textureID ∉ t :: ts := by
        intro hmem
        have h1 : c.textureID ≤ t := hs.1 t (by simp)
        have h2 : t ≤ c.textureID := by
          rcases List.mem_cons.mp hmem with h | h
          · exact le_of_eq h.symm
          · exact (List.pairwise_cons.mp hs.2).1 _ h
        exact ht (le_antisymm h2 h1)
      rw [List.dedup_cons_of_not_mem hnot]
      rfl

/-! ## Sort policies (C6 to C10) -/

/-- C6: `sortGlyphs` with the Texture policy yields a permutation of the glyph sequence that
is ordered by `textureID` and in which the glyphs of any one texture keep their submission
order.  Scenario: `[A(tex=1), B(tex=1), C(tex=2)]` stays `[A, B, C]`, so `A` stays before
`B`. -/
theorem sortGlyphs_texture_stable [LinearOrder F] (s : SpriteBatch F) :
    (s.sortGlyphs SpriteSortMode.TEXTURE)._glyphs.Perm s._glyphs
      ∧ (s.sortGlyphs SpriteSortMode.TEXTURE)._glyphs.Pairwise
          (fun a b => a.textureID ≤ b.textureID)
      ∧ (∀ t : Nat,
          (s.sortGlyphs SpriteSortMode.TEXTURE)._glyphs.filter
              (fun g => decide (g.textureID = t))
            = s._glyphs.filter (fun g => decide (g.textureID = t)))
      ∧ ∀ A B C : SpriteGlyph F,
          (SpriteBatch.sortGlyphs SpriteSortMode.TEXTURE
            { s with _glyphs := [{ A with textureID := 1 }, { B with textureID := 1 },
                                 { C with textureID := 2 }] })._glyphs
            = [{ A with textureID := 1 }, { B with textureID := 1 },
               { C with textureID := 2 }] := by
  refine ⟨sortGlyphs_perm _ s, ?_, ?_, ?_⟩
  · rw [sortGlyphs_texture_glyphs]
    exact stable_sort_sorted SSMTexture (fun g => g.textureID) SSMTexture_iff _
  · intro t
    rw [sortGlyphs_texture_glyphs]
    exact stable_sort_filter SSMTexture (fun g => g.textureID) SSMTexture_iff t _
  · intro A B C
    rw [sortGlyphs_texture_glyphs]
    simp [stable_sort, stable_insert, SSMTexture]

/-- C7: for every frame `begin()`, draw calls, `end(Texture)`, the number of batch
descriptors equals the number of distinct `textureID` values among the glyphs of the
frame. -/
theorem frame_texture_batch_count [LinearOrderedRing F] (cosf sinf : F → F)
    (s0 : SpriteBatch F) (ds : List (DrawCall F)) :
    ((s0.begin.drawCalls cosf sinf ds).end' SpriteSortMode.TEXTURE)._batches.length
      = ((s0.begin.drawCalls cosf sinf ds)._glyphs.map (fun g => g.textureID)).dedup.length := by
  obtain ⟨hb, _⟩ := frame_accumulated cosf sinf s0 ds
  have hperm := sortGlyphs_perm SpriteSortMode.TEXTURE (s0.begin.drawCalls cosf sinf ds)
  have hsorted : ((s0.begin.drawCalls cosf sinf ds).sortGlyphs
      SpriteSortMode.TEXTURE)._glyphs.Pairwise (fun a b => a.textureID ≤ b.textureID) := by
    rw [sortGlyphs_texture_glyphs]
    exact stable_sort_sorted SSMTexture (fun g => g.textureID) SSMTexture_iff _
  have hdd := ((hperm.map (fun g => g.textureID)).dedup).length_eq
  rw [← hdd]
  rcases hs : ((s0.begin.drawCalls cosf sinf ds).sortGlyphs
      SpriteSortMode.TEXTURE)._glyphs with _ | ⟨g0, rest⟩
  · rw [hs] at hperm
    rw [end_nil _ _ hperm.symm.eq_nil, hb]
    rfl
  · rw [end_batches_cons _ _ hb g0 rest hs]
    rw [hs] at hsorted
    have hmap : ((g0 :: rest).map (fun g => g.textureID)).Pairwise (fun a b => a ≤ b) :=
      List.pairwise_map.mpr hsorted
    exact coalesceFrom_length_sorted _
      { textureID := g0.textureID, indices := 6, indexOffset := 0 } hmap

/-- C8: `sortGlyphs` with the FrontToBack policy yields a permutation of the glyph sequence
in non-decreasing depth order in which the glyphs of any one depth keep their submission
order. -/
theorem sortGlyphs_frontToBack_stable [LinearOrder F] (s : SpriteBatch F) :
    (s.sortGlyphs SpriteSortMode.FRONT_TO_BACK)._glyphs.Perm s._glyphs
      ∧ (s.sortGlyphs SpriteSortMode.FRONT_TO_BACK)._glyphs.Pairwise
          (fun a b => a.depth ≤ b.depth)
      ∧ ∀ d : F,
          (s.sortGlyphs SpriteSortMode.FRONT_TO_BACK)._glyphs.filter
              (fun g => decide (g.depth = d))
            = s._glyphs.filter (fun g => decide (g.depth = d)) := by
  refine ⟨sortGlyphs_perm _ s, ?_, ?_⟩
  · rw [sortGlyphs_frontToBack_glyphs]
    exact stable_sort_sorted SSMFrontToBack (fun g => g.depth) SSMFrontToBack_iff _
  · intro d
    rw [sortGlyphs_frontToBack_glyphs]
    exact stable_sort_filter SSMFrontToBack (fun g => g.depth) SSMFrontToBack_iff d _

/-- C9: `sortGlyphs` with the BackToFront policy yields a permutation of the glyph sequence
in non-increasing depth order in which the glyphs of any one depth keep their submission
order; so the result is not in general the reverse of the FrontToBack result (two glyphs of
equal depth and different textures: both policies keep them in submission order). -/
theorem sortGlyphs_backToFront_stable [LinearOrderedRing F] (s : SpriteBatch F) :
    (s.sortGlyphs SpriteSortMode.BACK_TO_FRONT)._glyphs.Perm s._glyphs
      ∧ (s.sortGlyphs SpriteSortMode.BACK_TO_FRONT)._glyphs.Pairwise
          (fun a b => b.depth ≤ a.depth)
      ∧ (∀ d : F,
          (s.sortGlyphs SpriteSortMode.BACK_TO_FRONT)._glyphs.filter
              (fun g => decide (g.depth = d))
            = s._glyphs.filter (fun g => decide (g.depth = d)))
      ∧ (SpriteBatch.sortGlyphs SpriteSortMode.BACK_TO_FRONT
            { s with _glyphs := [SpriteGlyph.new 1 0, SpriteGlyph.new 2 0] })._glyphs
          ≠ (SpriteBatch.sortGlyphs SpriteSortMode.FRONT_TO_BACK
            { s with _glyphs := [SpriteGlyph.new 1 0, SpriteGlyph.new 2 0] })._glyphs.reverse := by
  refine ⟨sortGlyphs_perm _ s, ?_, ?_, ?_⟩
  · rw [sortGlyphs_backToFront_glyphs]
    exact stable_sort_sorted SSMBackToFront (fun g => OrderDual.toDual g.depth)
      SSMBackToFront_iff _
  · intro d
    rw [sortGlyphs_backToFront_glyphs]
    have := stable_sort_filter SSMBackToFront (fun g => OrderDual.toDual g.depth)
      SSMBackToFront_iff (OrderDual.toDual d) s._glyphs
    simpa using this
  · rw [sortGlyphs_backToFront_glyphs, sortGlyphs_frontToBack_glyphs]
    simp [stable_sort, stable_insert, SSMBackToFront, SSMFrontToBack, SpriteGlyph.new]

/-- C10: for every sort mode other than Texture, FrontToBack and BackToFront, `sortGlyphs`
leaves the batch (so the glyph sequence) exactly as submitted, and `end` is the batch
generation on that sequence: the vertices are uploaded glyph by glyph in draw-call order and
the descriptors are the maximal texture runs of the sequence as submitted. -/
theorem sortGlyphs_default_identity [LinearOrder F] (v : Nat) (s : SpriteBatch F) :
    s.sortGlyphs (SpriteSortMode.other v) = s
      ∧ s.end' (SpriteSortMode.other v) = s.generateBatches
      ∧ (s._glyphs ≠ [] →
          GLCall.bufferSubData 0 (s._glyphs.length * 6) (s._glyphs.flatMap SpriteGlyph.sixVerts)
            ∈ (s.end' (SpriteSortMode.other v)).glCalls)
      ∧ (s._glyphs ≠ [] → s._batches = [] →
          List.Forall₂ describesRun (s.end' (SpriteSortMode.other v))._batches
            (maximalRuns (s._glyphs.map (fun g => g.textureID)))) := by
  have h1 : s.sortGlyphs (SpriteSortMode.other v) = s := by
    unfold SpriteBatch.sortGlyphs
    split <;> rfl
  have h2 : s.end' (SpriteSortMode.other v) = s.generateBatches := by
    unfold SpriteBatch.end'
    rw [h1]
  refine ⟨h1, h2, ?_, ?_⟩
  · intro hg
    rw [h2, generateBatches_glCalls s hg]
    simp
  · intro hg hb
    rw [h2]
    exact generateBatches_runs s hb hg

theorem sortGlyphs_default_identity_witness :
    frame557._glyphs ≠ [] ∧ frame557._batches = [] ∧
      GLCall.bufferSubData 0 (frame557._glyphs.length * 6)
          (frame557._glyphs.flatMap SpriteGlyph.sixVerts)
        ∈ (frame557.end' (SpriteSortMode.other 0)).glCalls ∧
      List.Forall₂ describesRun (frame557.end' (SpriteSortMode.other 0))._batches
        (maximalRuns (frame557._glyphs.map (fun g => g.textureID))) :=
  ⟨by simp [frame557], rfl,
    (sortGlyphs_default_identity 0 frame557).2.2.1 (by simp [frame557]),
    (sortGlyphs_default_identity 0 frame557).2.2.2 (by simp [frame557]) rfl⟩

/-! ## Capacity, the empty frame and `dispose` (C11 to C14) -/

theorem sortGlyphs_eq [LinearOrder F] (ssm : SpriteSortMode) (s : SpriteBatch F) :
    s.sortGlyphs ssm = { s with _glyphs := (s.sortGlyphs ssm)._glyphs } := by
  unfold SpriteBatch.sortGlyphs
  split
  · rfl
  · cases ssm <;> rfl

theorem generateBatches_capacity (s : SpriteBatch F) (h : s._glyphs ≠ []) :
    s.generateBatches._glyphCapacity
      = if s._glyphs.length > s._glyphCapacity then s._glyphs.length * 2
        else s._glyphCapacity := by
  unfold SpriteBatch.generateBatches
  split
  · rename_i hg; exact absurd hg h
  · rename_i a l hg
    simp only []
    rw [hg]
    by_cases hc : s._glyphCapacity < (a :: l).length <;> simp [hc]

theorem generateBatches_capacity_le (s : SpriteBatch F) :
    s._glyphCapacity ≤ s.generateBatches._glyphCapacity := by
  by_cases h : s._glyphs = []
  · rw [generateBatches_nil s h]
  · rw [generateBatches_capacity s h]
    split <;> omega

theorem end_capacity_le [LinearOrder F] (ssm : SpriteSortMode) (s : SpriteBatch F) :
    s._glyphCapacity ≤ (s.end' ssm)._glyphCapacity := by
  unfold SpriteBatch.end'
  have h := generateBatches_capacity_le (s.sortGlyphs ssm)
  rw [sortGlyphs_eq] at h
  rw [sortGlyphs_eq]
  exact h

theorem drawCall_capacity [Ring F] (cosf sinf : F → F) (s : SpriteBatch F) (d : DrawCall F) :
    (s.drawCall cosf sinf d)._glyphCapacity = s._glyphCapacity := by
  cases d <;> rfl

theorem dispose_capacity (s : SpriteBatch F) :
    s.dispose._glyphCapacity = s._glyphCapacity := by
  unfold SpriteBatch.dispose
  simp only []
  split_ifs <;> rfl

theorem begin_capacity (s : SpriteBatch F) : s.begin._glyphCapacity = s._glyphCapacity := by
  unfold SpriteBatch.begin
  simp only []
  split_ifs <;> rfl

theorem call_capacity_le [LinearOrderedField F] (cosf sinf : F → F) (_program : Nat)
    (s : SpriteBatch F) (op : Op F) :
    s._glyphCapacity ≤ (s.call cosf sinf _program op)._glyphCapacity := by
  cases op with
  | begin => exact le_of_eq (begin_capacity s).symm
  | draw d => exact le_of_eq (drawCall_capacity cosf sinf s d).symm
  | end' ssm => exact end_capacity_le ssm s
  | renderBatch mWorld mCamera ss ds rs shader => exact le_refl _
  | renderBatch_screenSize mWorld screenSize ss ds rs shader => exact le_refl _
  | renderBatch_identity screenSize ss ds rs shader => exact le_refl _
  | dispose => exact le_of_eq (dispose_capacity s).symm

/-- C11: for every `end(ssm)` that finalizes `N ≥ 1` glyphs with current capacity `C`: if
`N > C` the new capacity is exactly `2 * N` and the device buffer is reallocated
(`glBufferData`) for `2 * N * 6` vertices before the upload; if `N ≤ C` the capacity stays `C`
and the calls issued are the bind, the upload and the unbind, with no `glBufferData`. -/
theorem end_capacity_growth [LinearOrder F] (ssm : SpriteSortMode) (s : SpriteBatch F)
    (hN : 1 ≤ s._glyphs.length) :
    (s._glyphs.length > s._glyphCapacity →
        (s.end' ssm)._glyphCapacity = 2 * s._glyphs.length
          ∧ (s.end' ssm).glCalls
            = s.glCalls ++ [GLCall.bindBuffer s._vbo,
                GLCall.bufferData (2 * s._glyphs.length * 6) s._bufUsage,
                GLCall.bufferSubData 0 (s._glyphs.length * 6)
                  ((s.sortGlyphs ssm)._glyphs.flatMap SpriteGlyph.sixVerts),
                GLCall.bindBuffer 0])
      ∧ (s._glyphs.length ≤ s._glyphCapacity →
        (s.end' ssm)._glyphCapacity = s._glyphCapacity
          ∧ (s.end' ssm).glCalls
            = s.glCalls ++ [GLCall.bindBuffer s._vbo,
                GLCall.bufferSubData 0 (s._glyphs.length * 6)
                  ((s.sortGlyphs ssm)._glyphs.flatMap SpriteGlyph.sixVerts),
                GLCall.bindBuffer 0]) := by
  have hg : s._glyphs ≠ [] := by
    intro h; rw [h] at hN; simp at hN
  have hne := sortGlyphs_ne_nil ssm s hg
  have hlen := (sortGlyphs_perm ssm s).length_eq
  have hcap := generateBatches_capacity (s.sortGlyphs ssm) hne
  have hgl := generateBatches_glCalls (s.sortGlyphs ssm) hne
  rw [hlen] at hcap hgl
  have hfields : (s.sortGlyphs ssm)._glyphCapacity = s._glyphCapacity
      ∧ (s.sortGlyphs ssm).glCalls = s.glCalls ∧ (s.sortGlyphs ssm)._vbo = s._vbo
      ∧ (s.sortGlyphs ssm)._bufUsage = s._bufUsage := by
    rw [sortGlyphs_eq]; exact ⟨rfl, rfl, rfl, rfl⟩
  obtain ⟨h1, h2, h3, h4⟩ := hfields
  rw [h1] at hcap hgl
  rw [h2, h3, h4] at hgl
  unfold SpriteBatch.end'
  constructor
  · intro hgt
    rw [hcap, hgl]
    simp only [hgt, if_true]
    refine ⟨by omega, ?_⟩
    simp [Nat.mul_comm]
  · intro hle
    have hng : ¬ s._glyphs.length > s._glyphCapacity := by omega
    rw [hcap, hgl]
    simp [hng]

theorem end_capacity_growth_witness :
    1 ≤ frame557._glyphs.length ∧ frame557._glyphs.length > frame557._glyphCapacity
      ∧ (frame557.end' SpriteSortMode.TEXTURE)._glyphCapacity = 2 * frame557._glyphs.length
      ∧ 1 ≤ ({ frame557 with _glyphCapacity := 3 } : SpriteBatch ℚ)._glyphs.length
      ∧ (SpriteBatch.end' SpriteSortMode.TEXTURE
          ({ frame557 with _glyphCapacity := 3 } : SpriteBatch ℚ))._glyphCapacity = 3 :=
  ⟨by simp [frame557], by simp [frame557, SpriteBatch.new],
    ((end_capacity_growth SpriteSortMode.TEXTURE frame557 (by simp [frame557])).1
      (by simp [frame557, SpriteBatch.new])).1,
    by simp [frame557],
    ((end_capacity_growth SpriteSortMode.TEXTURE { frame557 with _glyphCapacity := 3 }
      (by simp [frame557])).2 (by simp [frame557])).1⟩

/-- C12: the glyph capacity never decreases: along every sequence of `begin`, `draw`, `end`,
`renderBatch` and `dispose` calls, from any state, the capacity after each call is at least
the capacity before it (so it is at least the initial capacity at every point). -/
theorem capacity_never_decreases [LinearOrderedField F] (cosf sinf : F → F) (_program : Nat)
    (s : SpriteBatch F) (ops : List (Op F)) (op : Op F) :
    (s.calls cosf sinf _program ops)._glyphCapacity
        ≤ (s.calls cosf sinf _program (ops ++ [op]))._glyphCapacity
      ∧ s._glyphCapacity ≤ (s.calls cosf sinf _program ops)._glyphCapacity := by
  constructor
  · simp only [SpriteBatch.calls, List.foldl_append, List.foldl_cons, List.foldl_nil]
    exact call_capacity_le cosf sinf _program _ op
  · induction ops using List.reverseRecOn with
    | nil => exact le_refl _
    | append_singleton ops op ih =>
      refine le_trans ih ?_
      simp only [SpriteBatch.calls, List.foldl_append, List.foldl_cons, List.foldl_nil]
      exact call_capacity_le cosf sinf _program _ op

/-- C13: from every state, `begin(); end(ssm)` with no draw call in between leaves the batch
list empty, issues no device call at all (so neither `glBufferData` nor `glBufferSubData`) and
leaves the capacity unchanged. -/
theorem empty_frame_untouched [LinearOrder F] (ssm : SpriteSortMode) (s : SpriteBatch F) :
    (s.begin.end' ssm)._batches = []
      ∧ (s.begin.end' ssm).glCalls = s.glCalls
      ∧ (s.begin.end' ssm)._glyphCapacity = s._glyphCapacity := by
  rw [end_nil ssm s.begin (begin_glyphs s)]
  refine ⟨begin_batches s, ?_, begin_capacity s⟩
  unfold SpriteBatch.begin
  simp only []
  split_ifs <;> rfl

/-- C14: `dispose` is idempotent: `dispose (dispose s) = dispose s` for every state `s` (the
device log included, so the second call issues no delete call), and after `dispose` the
handles `_vbo`, `_vao` and `_texPixel` are all 0. -/
theorem dispose_idempotent (s : SpriteBatch F) :
    s.dispose.dispose = s.dispose
      ∧ s.dispose._vbo = 0 ∧ s.dispose._vao = 0 ∧ s.dispose._texPixel = 0
      ∧ s.dispose.dispose.glCalls = s.dispose.glCalls := by
  have hz : s.dispose._vbo = 0 ∧ s.dispose._vao = 0 ∧ s.dispose._texPixel = 0 := by
    unfold SpriteBatch.dispose
    simp only []
    split_ifs <;> simp_all
  have hid : s.dispose.dispose = s.dispose := by
    obtain ⟨h1, h2, h3⟩ := hz
    generalize s.dispose = d at h1 h2 h3
    unfold SpriteBatch.dispose
    simp [h1, h2, h3]
  exact ⟨hid, hz.1, hz.2.1, hz.2.2, by rw [hid]⟩

/-! ## The geometry builder (C15 to C18) -/

/-- C15: the unrotated `draw` overload with a pivot puts the top-left corner at
`position − size∘offset` and the bottom-right corner at `position + size∘(1 − offset)`; the
top-right corner is `(bottomRight.x, topLeft.y)`, the bottom-left corner is
`(topLeft.x, bottomRight.y)`, and every vertex has `z = depth`.  With offset `(0, 0)` the quad
spans `position` to `position + size`.  No sign condition on `size` is involved. -/
theorem draw_offset_geometry [CommRing F] (s : SpriteBatch F) (t : Nat)
    (uvRect : Option (f32v4 F)) (uvTiling : Option (f32v2 F)) (position offset size : f32v2 F)
    (tint : ColorRGBA8) (depth : F) :
    (∃ g, (s.draw_offset t uvRect uvTiling position offset size tint depth)._glyphs
          = s._glyphs ++ [g]
        ∧ g.vtl.position
          = { x := position.x - size.x * offset.x, y := position.y - size.y * offset.y,
              z := depth }
        ∧ g.vbr.position
          = { x := position.x + size.x * (1 - offset.x),
              y := position.y + size.y * (1 - offset.y), z := depth }
        ∧ g.vtr.position = { x := g.vbr.position.x, y := g.vtl.position.y, z := depth }
        ∧ g.vbl.position = { x := g.vtl.position.x, y := g.vbr.position.y, z := depth })
      ∧ ∃ g0, (s.draw_offset t uvRect uvTiling position { x := 0, y := 0 } size tint
            depth)._glyphs = s._glyphs ++ [g0]
        ∧ g0.vtl.position = { x := position.x, y := position.y, z := depth }
        ∧ g0.vbr.position
          = { x := position.x + size.x, y := position.y + size.y, z := depth } := by
  refine ⟨⟨_, rfl, ?_, ?_, rfl, rfl⟩, ⟨_, rfl, ?_, ?_⟩⟩ <;>
    simp only [mkVertex, f32v3.mk.injEq, and_true] <;> constructor <;> ring

/-- C16: over the real numbers and for every rotation `r`, the rotated `draw` overload places
the corner with pivot-relative coordinate `(cx, cy)` at
`position + (cx·cos r − cy·sin r, cx·sin r + cy·cos r)`, where `cx` is `−size.x·offset.x`
(left) or `size.x·(1 − offset.x)` (right) and `cy` is `−size.y·offset.y` (top) or
`size.y·(1 − offset.y)` (bottom); every vertex has `z = depth`.  With `r = π/2` and offset
`(0, 0)` the top-right corner lands at `position + (0, size.x)`. -/
theorem draw_rotation_geometry (s : SpriteBatch ℝ) (t : Nat) (uvRect : Option (f32v4 ℝ))
    (uvTiling : Option (f32v2 ℝ)) (position offset size : f32v2 ℝ) (r : ℝ)
    (tint : ColorRGBA8) (depth : ℝ) :
    (∃ g, (s.draw Real.cos Real.sin t uvRect uvTiling position offset size r tint
            depth)._glyphs = s._glyphs ++ [g]
        ∧ (({ x := g.vtl.position.x, y := g.vtl.position.y } : f32v2 ℝ)
            = rotatedCorner (Real.cos r) (Real.sin r) position
                (-(size.x * offset.x)) (-(size.y * offset.y)))
        ∧ (({ x := g.vtr.position.x, y := g.vtr.position.y } : f32v2 ℝ)
            = rotatedCorner (Real.cos r) (Real.sin r) position
                (size.x * (1 - offset.x)) (-(size.y * offset.y)))
        ∧ (({ x := g.vbl.position.x, y := g.vbl.position.y } : f32v2 ℝ)
            = rotatedCorner (Real.cos r) (Real.sin r) position
                (-(size.x * offset.x)) (size.y * (1 - offset.y)))
        ∧ (({ x := g.vbr.position.x, y := g.vbr.position.y } : f32v2 ℝ)
            = rotatedCorner (Real.cos r) (Real.sin r) position
                (size.x * (1 - offset.x)) (size.y * (1 - offset.y)))
        ∧ g.vtl.position.z = depth ∧ g.vtr.position.z = depth
        ∧ g.vbl.position.z = depth ∧ g.vbr.position.z = depth)
      ∧ ∃ g, (s.draw Real.cos Real.sin t uvRect uvTiling position { x := 0, y := 0 } size
            (Real.pi / 2) tint depth)._glyphs = s._glyphs ++ [g]
        ∧ g.vtr.position.x = position.x ∧ g.vtr.position.y = position.y + size.x := by
  refine ⟨⟨_, rfl, ?_, ?_, ?_, ?_, rfl, rfl, rfl, rfl⟩, ⟨_, rfl, ?_, ?_⟩⟩
  · simp only [mkVertex, rotatedCorner, Real.cos_neg, Real.sin_neg, f32v2.mk.injEq]
    constructor <;> ring
  · simp only [mkVertex, rotatedCorner, Real.cos_neg, Real.sin_neg, f32v2.mk.injEq]
    constructor <;> ring
  · simp only [mkVertex, rotatedCorner, Real.cos_neg, Real.sin_neg, f32v2.mk.injEq]
    constructor <;> ring
  · simp only [mkVertex, rotatedCorner, Real.cos_neg, Real.sin_neg, f32v2.mk.injEq]
    constructor <;> ring
  · simp [mkVertex, Real.cos_neg, Real.sin_neg]
  · simp [mkVertex, Real.cos_neg, Real.sin_neg]
    ring

/-- C17: every simpler `draw` overload leaves exactly the state (so appends exactly the glyph)
that the rotation overload leaves when called with the omitted parameters set to
`rotation = 0`, `offset = (0, 0)`, `uvTiling = (1, 1)` or null, `uvRect = (0, 0, 1, 1)` or
null, given `cos 0 = 1` and `sin 0 = 0` and exact arithmetic.  In particular the
`(position, size, tint, depth)` overload always has `uvRect = (0, 0, 1, 1)` on its four
vertices and corner uvs `(0,0)`, `(1,0)`, `(0,1)`, `(1,1)`. -/
theorem draw_overloads_agree [Ring F] (cosf sinf : F → F) (hcos : cosf 0 = 1)
    (hsin : sinf 0 = 0) (s : SpriteBatch F) (t : Nat) (uvRect : Option (f32v4 F))
    (uvTiling : Option (f32v2 F)) (position offset size : f32v2 F) (tint : ColorRGBA8)
    (depth : F) :
    s.draw_offset t uvRect uvTiling position offset size tint depth
        = s.draw cosf sinf t uvRect uvTiling position offset size 0 tint depth
      ∧ s.draw_tiling t uvRect uvTiling position size tint depth
        = s.draw cosf sinf t uvRect uvTiling position { x := 0, y := 0 } size 0 tint depth
      ∧ s.draw_uvRect t uvRect position size tint depth
        = s.draw cosf sinf t uvRect none position { x := 0, y := 0 } size 0 tint depth
      ∧ s.draw_uvRect t uvRect position size tint depth
        = s.draw cosf sinf t uvRect (some { x := 1, y := 1 }) position { x := 0, y := 0 } size
            0 tint depth
      ∧ s.draw_simple t position size tint depth
        = s.draw cosf sinf t none none position { x := 0, y := 0 } size 0 tint depth
      ∧ s.draw_simple t position size tint depth
        = s.draw cosf sinf t (some { x := 0, y := 0, z := 1, w := 1 })
            (some { x := 1, y := 1 }) position { x := 0, y := 0 } size 0 tint depth
      ∧ ∃ g, (s.draw_simple t position size tint depth)._glyphs = s._glyphs ++ [g]
        ∧ g.vtl.uvRect = { x := 0, y := 0, z := 1, w := 1 }
        ∧ g.vtr.uvRect = { x := 0, y := 0, z := 1, w := 1 }
        ∧ g.vbl.uvRect = { x := 0, y := 0, z := 1, w := 1 }
        ∧ g.vbr.uvRect = { x := 0, y := 0, z := 1, w := 1 }
        ∧ g.vtl.uv = { x := 0, y := 0 } ∧ g.vtr.uv = { x := 1, y := 0 }
        ∧ g.vbl.uv = { x := 0, y := 1 } ∧ g.vbr.uv = { x := 1, y := 1 } := by
  refine ⟨?_, ?_, ?_, ?_, ?_, ?_, ⟨_, rfl, rfl, rfl, rfl, rfl, rfl, rfl, rfl, rfl⟩⟩ <;>
    simp [SpriteBatch.draw, SpriteBatch.draw_offset, SpriteBatch.draw_tiling,
      SpriteBatch.draw_uvRect, SpriteBatch.draw_simple, uvrOrDefault, uvtOrDefault, hcos, hsin]

theorem draw_overloads_agree_witness :
    Real.cos 0 = 1 ∧ Real.sin 0 = 0 ∧
      (SpriteBatch.new ℝ true 9).draw_simple 5 { x := 3, y := 4 } { x := 10, y := 20 }
          { r := 255, g := 255, b := 255, a := 255 } 0
        = (SpriteBatch.new ℝ true 9).draw Real.cos Real.sin 5 none none { x := 3, y := 4 }
            { x := 0, y := 0 } { x := 10, y := 20 } 0
            { r := 255, g := 255, b := 255, a := 255 } 0 :=
  ⟨Real.cos_zero, Real.sin_zero,
    (draw_overloads_agree Real.cos Real.sin Real.cos_zero Real.sin_zero
      (SpriteBatch.new ℝ true 9) 5 none none { x := 3, y := 4 } { x := 0, y := 0 }
      { x := 10, y := 20 } { r := 255, g := 255, b := 255, a := 255 } 0).2.2.2.2.1⟩

/-- C18: for every `draw` overload and every texture argument `t`, the appended glyph has
`textureID = _texPixel` when `t = 0` and `textureID = t` when `t ≠ 0`. -/
theorem draw_texture_resolution [Ring F] (cosf sinf : F → F) (s : SpriteBatch F)
    (d : DrawCall F) :
    ∃ g, (s.drawCall cosf sinf d)._glyphs = s._glyphs ++ [g]
      ∧ (d.texture = 0 → g.textureID = s._texPixel)
      ∧ (d.texture ≠ 0 → g.textureID = d.texture) := by
  cases d <;>
    exact ⟨_, rfl, fun h => by simp only [DrawCall.texture] at h; simp [h],
      fun h => by simp only [DrawCall.texture] at h; simp [h, DrawCall.texture]⟩

theorem draw_texture_resolution_witness :
    (DrawCall.simple 0 (f32v2.mk (0 : ℚ) 0) (f32v2.mk 1 1) (ColorRGBA8.mk 0 0 0 0) 0).texture = 0
      ∧ (DrawCall.simple 5 (f32v2.mk (0 : ℚ) 0) (f32v2.mk 1 1) (ColorRGBA8.mk 0 0 0 0)
          0).texture ≠ 0
      ∧ (∃ g, ((SpriteBatch.new ℚ true 9).drawCall id id
            (DrawCall.simple 0 (f32v2.mk (0 : ℚ) 0) (f32v2.mk 1 1) (ColorRGBA8.mk 0 0 0 0)
              0))._glyphs = (SpriteBatch.new ℚ true 9)._glyphs ++ [g] ∧ g.textureID = 9)
      ∧ ∃ g, ((SpriteBatch.new ℚ true 9).drawCall id id
            (DrawCall.simple 5 (f32v2.mk (0 : ℚ) 0) (f32v2.mk 1 1) (ColorRGBA8.mk 0 0 0 0)
              0))._glyphs = (SpriteBatch.new ℚ true 9)._glyphs ++ [g] ∧ g.textureID = 5 := by
  refine ⟨rfl, by simp [DrawCall.texture], ?_, ?_⟩
  · obtain ⟨g, h1, h2, _⟩ := draw_texture_resolution id id (SpriteBatch.new ℚ true 9)
      (DrawCall.simple 0 (f32v2.mk (0 : ℚ) 0) (f32v2.mk 1 1) (ColorRGBA8.mk 0 0 0 0) 0)
    exact ⟨g, h1, h2 rfl⟩
  · obtain ⟨g, h1, _, h3⟩ := draw_texture_resolution id id (SpriteBatch.new ℚ true 9)
      (DrawCall.simple 5 (f32v2.mk (0 : ℚ) 0) (f32v2.mk 1 1) (ColorRGBA8.mk 0 0 0 0) 0)
    exact ⟨g, h1, h3 (by simp [DrawCall.texture])⟩

/-! ## Accumulation and `begin` (C19, C20) -/

theorem drawCall_appends [Ring F] (cosf sinf : F → F) (s : SpriteBatch F) (d : DrawCall F) :
    ∃ g, s.glyphOf cosf sinf d = some g
      ∧ s.drawCall cosf sinf d
        = { s with _glyphRecycler := s._glyphRecycler.create, _glyphs := s._glyphs ++ [g] } := by
  cases d <;> exact ⟨_, by simp [SpriteBatch.glyphOf, SpriteBatch.drawCall, SpriteBatch.draw,
    SpriteBatch.draw_offset, SpriteBatch.draw_tiling, SpriteBatch.draw_uvRect,
    SpriteBatch.draw_simple, SpriteBatch.pushGlyph], rfl⟩

theorem glyphOf_congr [Ring F] (cosf sinf : F → F) (s s' : SpriteBatch F)
    (h : s._texPixel = s'._texPixel) (d : DrawCall F) :
    s.glyphOf cosf sinf d = s'.glyphOf cosf sinf d := by
  cases d <;>
    simp [SpriteBatch.glyphOf, SpriteBatch.drawCall, SpriteBatch.draw,
      SpriteBatch.draw_offset, SpriteBatch.draw_tiling, SpriteBatch.draw_uvRect,
      SpriteBatch.draw_simple, SpriteBatch.pushGlyph, h]

theorem drawCalls_glyphs [Ring F] (cosf sinf : F → F) (ds : List (DrawCall F)) :
    ∀ s : SpriteBatch F,
      (s.drawCalls cosf sinf ds)._glyphs.map some
        = s._glyphs.map some ++ ds.map (s.glyphOf cosf sinf) := by
  induction ds with
  | nil => intro s; simp [SpriteBatch.drawCalls]
  | cons d ds ih =>
    intro s
    obtain ⟨g, hg, hs⟩ := drawCall_appends cosf sinf s d
    have hstep : (s.drawCalls cosf sinf (d :: ds))
        = (s.drawCall cosf sinf d).drawCalls cosf sinf ds := rfl
    have hfun : (s.drawCall cosf sinf d).glyphOf cosf sinf = s.glyphOf cosf sinf := by
      funext d'
      exact glyphOf_congr cosf sinf _ _ (by rw [hs]) d'
    rw [hstep, ih, hfun, hs]
    simp [hg]

theorem foldl_recycle {α : Type} (l : List α) :
    ∀ r : PtrRecycler α, (l.foldl PtrRecycler.recycle r).recycled = r.recycled ++ l := by
  induction l with
  | nil => intro r; simp
  | cons a l ih =>
    intro r
    simp only [List.foldl_cons]
    rw [ih]
    simp [PtrRecycler.recycle]

/-- C19: every `draw` overload appends exactly one glyph at the end of the glyph sequence,
takes one record from the glyph recycler, and changes nothing else: the glyphs accumulated
before stay in front, in order, and the batch list, the capacity, the device handles and the
device log are unchanged.  Hence after `begin()` and the draw calls `ds` the accumulator holds
exactly one glyph per call, in call order. -/
theorem draw_appends_one_glyph [Ring F] (cosf sinf : F → F) (s : SpriteBatch F)
    (d : DrawCall F) (ds : List (DrawCall F)) :
    (∃ g, s.drawCall cosf sinf d
        = { s with _glyphRecycler := s._glyphRecycler.create, _glyphs := s._glyphs ++ [g] })
      ∧ (s.drawCall cosf sinf d)._batches = s._batches
      ∧ (s.drawCall cosf sinf d)._glyphCapacity = s._glyphCapacity
      ∧ (s.drawCall cosf sinf d)._vbo = s._vbo
      ∧ (s.drawCall cosf sinf d)._vao = s._vao
      ∧ (s.drawCall cosf sinf d)._texPixel = s._texPixel
      ∧ (s.drawCall cosf sinf d).glCalls = s.glCalls
      ∧ (s.begin.drawCalls cosf sinf ds)._glyphs.length = ds.length
      ∧ (s.begin.drawCalls cosf sinf ds)._glyphs.map some
        = ds.map (s.begin.glyphOf cosf sinf) := by
  obtain ⟨g, _, hs⟩ := drawCall_appends cosf sinf s d
  refine ⟨⟨g, hs⟩, ?_, ?_, ?_, ?_, ?_, ?_, (frame_accumulated cosf sinf s ds).2, ?_⟩
  · rw [hs]
  · rw [hs]
  · rw [hs]
  · rw [hs]
  · rw [hs]
  · rw [hs]
  · rw [drawCalls_glyphs, begin_glyphs]
    simp

/-- C20: from every state, after `begin()` the glyph sequence and the batch list are empty,
every glyph and every batch descriptor that was held has been released to its recycler once
(the pool grew by exactly the held records, in order), and the capacity, the device handles
and the device log are unchanged. -/
theorem begin_releases_everything (s : SpriteBatch F) :
    s.begin._glyphs = [] ∧ s.begin._batches = []
      ∧ s.begin._glyphRecycler.recycled = s._glyphRecycler.recycled ++ s._glyphs
      ∧ s.begin._batchRecycler.recycled = s._batchRecycler.recycled ++ s._batches
      ∧ s.begin._glyphCapacity = s._glyphCapacity
      ∧ s.begin._vbo = s._vbo ∧ s.begin._vao = s._vao ∧ s.begin._texPixel = s._texPixel
      ∧ s.begin._bufUsage = s._bufUsage ∧ s.begin.glCalls = s.glCalls := by
  refine ⟨begin_glyphs s, begin_batches s, ?_, ?_, begin_capacity s, ?_, ?_, ?_, ?_, ?_⟩
  · unfold SpriteBatch.begin
    by_cases h : s._glyphs.length > 0
    · simp only [h, if_true]
      exact foldl_recycle _ _
    · have hn : s._glyphs = [] := List.length_eq_zero.mp (by omega)
      simp [hn]
  · unfold SpriteBatch.begin
    simp only []
    rw [foldl_recycle]
    split_ifs <;> rfl
  all_goals
    unfold SpriteBatch.begin
    simp only []
    split_ifs <;> rfl

/-! ## Rendering (C21, C22) -/

theorem boundDraws_renderBatchCalls (shader : Nat) (ss : SamplerState)
    (post : List (GLCall F)) (hpost : ∀ bound, boundDraws bound post = [])
    (bs : List SpriteBatchCall) :
    ∀ bound : Option Nat,
      boundDraws bound (bs.flatMap (renderBatchCalls shader ss) ++ post)
        = bs.map (fun b => (some b.textureID, b.indexOffset, b.indices)) := by
  induction bs with
  | nil => intro bound; simpa using hpost bound
  | cons b bs ih =>
    intro bound
    simp only [List.flatMap_cons, renderBatchCalls, List.cons_append, List.nil_append,
      boundDraws, List.map_cons, List.cons.injEq, true_and]
    exact ih (some b.textureID)

theorem renderBatch_glCalls (_program : Nat) (s : SpriteBatch F) (mWorld mCamera : f32m4 F)
    (ss : Option SamplerState) (ds : Option DepthState) (rs : Option RasterizerState)
    (shader : Option Nat) :
    ∃ issued, (s.renderBatch _program mWorld mCamera ss ds rs shader).glCalls
          = s.glCalls ++ issued
      ∧ ∀ bound, boundDraws bound issued
          = s._batches.map (fun b => (some b.textureID, b.indexOffset, b.indices)) := by
  refine ⟨[GLCall.depthStateSet (ds.getD DepthState.NONE),
      GLCall.rasterizerStateSet (rs.getD RasterizerState.CULL_NONE),
      GLCall.programUse (shader.getD _program),
      GLCall.uniformMatrix4fv (shader.getD _program) "World" mWorld,
      GLCall.uniformMatrix4fv (shader.getD _program) "VP" mCamera,
      GLCall.bindVertexArray s._vao]
      ++ (s._batches.flatMap
            (renderBatchCalls (shader.getD _program) (ss.getD SamplerState.LINEAR_WRAP))
          ++ [GLCall.bindVertexArray 0, GLCall.bindSampler 0 0,
              GLCall.programUnuse (shader.getD _program)]), ?_, ?_⟩
  · simp [SpriteBatch.renderBatch]
  · intro bound
    simp only [List.cons_append, List.nil_append, boundDraws]
    exact boundDraws_renderBatchCalls _ _ _ (by intro b; simp [boundDraws]) _ bound

/-- C21: for every batch list, `renderBatch` issues exactly one draw call per batch
descriptor, in list order, each with the `textureID` of its descriptor bound and covering
`first = indexOffset`, `count = indices`; it changes neither the batch list, nor the glyph
sequence, nor the capacity.  The two screen-size overloads are calls of the general one. -/
theorem renderBatch_one_draw_per_batch [DivisionRing F] (_program : Nat) (s : SpriteBatch F)
    (mWorld mCamera : f32m4 F) (screenSize : f32v2 F) (ss : Option SamplerState)
    (ds : Option DepthState) (rs : Option RasterizerState) (shader : Option Nat) :
    (∃ issued, (s.renderBatch _program mWorld mCamera ss ds rs shader).glCalls
          = s.glCalls ++ issued
        ∧ ∀ bound, boundDraws bound issued
            = s._batches.map (fun b => (some b.textureID, b.indexOffset, b.indices)))
      ∧ (s.renderBatch _program mWorld mCamera ss ds rs shader)._batches = s._batches
      ∧ (s.renderBatch _program mWorld mCamera ss ds rs shader)._glyphs = s._glyphs
      ∧ (s.renderBatch _program mWorld mCamera ss ds rs shader)._glyphCapacity
        = s._glyphCapacity
      ∧ (∃ m, s.renderBatch_screenSize _program mWorld screenSize ss ds rs shader
          = s.renderBatch _program mWorld m ss ds rs shader)
      ∧ ∃ w m, s.renderBatch_identity _program screenSize ss ds rs shader
          = s.renderBatch _program w m ss ds rs shader :=
  ⟨renderBatch_glCalls _program s mWorld mCamera ss ds rs shader, rfl, rfl, rfl,
    ⟨_, rfl⟩, ⟨_, _, rfl⟩⟩

/-- C22: for every screen size `(W, H)` with `W ≠ 0` and `H ≠ 0`, the screen-size overloads
of `renderBatch` pass on the camera matrix `screenCamera (W, H)`, which maps the homogeneous
point `(x, y, z, 1)` to `(2x/W − 1, 1 − 2y/H, z, 1)` in exact arithmetic; pixel `(0, 0)` goes
to `(−1, 1)` and pixel `(W, H)` to `(1, −1)`. -/
theorem screenCamera_projection [Field F] (_program : Nat) (s : SpriteBatch F)
    (mWorld : f32m4 F) (screenSize : f32v2 F) (ss : Option SamplerState)
    (ds : Option DepthState) (rs : Option RasterizerState) (shader : Option Nat)
    (hW : screenSize.x ≠ 0) (hH : screenSize.y ≠ 0) :
    s.renderBatch_screenSize _program mWorld screenSize ss ds rs shader
        = s.renderBatch _program mWorld (screenCamera screenSize) ss ds rs shader
      ∧ (∃ w, s.renderBatch_identity _program screenSize ss ds rs shader
          = s.renderBatch _program w (screenCamera screenSize) ss ds rs shader)
      ∧ (∀ x y z : F,
          mulVec (screenCamera screenSize) { x := x, y := y, z := z, w := 1 }
            = { x := 2 * x / screenSize.x - 1, y := 1 - 2 * y / screenSize.y, z := z,
                w := 1 })
      ∧ (∀ z : F, mulVec (screenCamera screenSize) { x := 0, y := 0, z := z, w := 1 }
            = { x := -1, y := 1, z := z, w := 1 })
      ∧ ∀ z : F,
          mulVec (screenCamera screenSize)
              { x := screenSize.x, y := screenSize.y, z := z, w := 1 }
            = { x := 1, y := -1, z := z, w := 1 } := by
  refine ⟨rfl, ⟨_, rfl⟩, ?_, ?_, ?_⟩
  · intro x y z
    simp only [screenCamera, mulVec, f32v4.mk.injEq]
    refine ⟨?_, ?_, ?_, ?_⟩ <;> field_simp <;> ring
  · intro z
    simp [screenCamera, mulVec]
  · intro z
    simp only [screenCamera, mulVec, f32v4.mk.injEq]
    refine ⟨?_, ?_, ?_, ?_⟩ <;> field_simp <;> ring

theorem screenCamera_projection_witness :
    (f32v2.mk (800 : ℚ) 600).x ≠ 0 ∧ (f32v2.mk (800 : ℚ) 600).y ≠ 0
      ∧ (∀ x y z : ℚ,
          mulVec (screenCamera (f32v2.mk (800 : ℚ) 600)) { x := x, y := y, z := z, w := 1 }
            = { x := 2 * x / (f32v2.mk (800 : ℚ) 600).x - 1,
                y := 1 - 2 * y / (f32v2.mk (800 : ℚ) 600).y, z := z, w := 1 }) :=
  ⟨by simp, by simp,
    (screenCamera_projection 0 (SpriteBatch.new ℚ true 9)
      (screenCamera (f32v2.mk (800 : ℚ) 600)) (f32v2.mk (800 : ℚ) 600) none none none none
      (by simp) (by simp)).2.2.1⟩

/-! ## The batch list across frames (C23 to C26) -/

theorem wellFormedBatches_coalesceFrom (t : Nat) (ts : List Nat) :
    wellFormedBatches (coalesceFrom { textureID := t, indices := 6, indexOffset := 0 } ts) := by
  right
  constructor
  · obtain ⟨hd, tl, h1, h2, _⟩ := coalesceFrom_head ts
      { textureID := t, indices := 6, indexOffset := 0 }
    exact ⟨hd, tl, h1, h2⟩
  · have hch := coalesceFrom_chain ts { textureID := t, indices := 6, indexOffset := 0 }
    intro i h
    have := List.chain'_iff_get.mp hch i (by omega)
    simpa using this

theorem end_wellFormed [LinearOrder F] (ssm : SpriteSortMode) (s : SpriteBatch F)
    (hb : s._batches = []) : wellFormedBatches (s.end' ssm)._batches := by
  rcases hs : (s.sortGlyphs ssm)._glyphs with _ | ⟨g0, rest⟩
  · have hperm := sortGlyphs_perm ssm s
    rw [hs] at hperm
    rw [end_nil ssm s hperm.symm.eq_nil, hb]
    exact Or.inl rfl
  · rw [end_batches_cons ssm s hb g0 rest hs]
    exact wellFormedBatches_coalesceFrom _ _

theorem generateBatches_glyphs (s : SpriteBatch F) : s.generateBatches._glyphs = [] := by
  unfold SpriteBatch.generateBatches
  split
  · assumption
  · rfl

theorem end_glyphs [LinearOrder F] (ssm : SpriteSortMode) (s : SpriteBatch F) :
    (s.end' ssm)._glyphs = [] :=
  generateBatches_glyphs _

theorem dispose_batches (s : SpriteBatch F) : s.dispose._batches = s._batches := by
  unfold SpriteBatch.dispose
  simp only []
  split_ifs <;> rfl

theorem framed_wellFormed [LinearOrderedField F] (cosf sinf : F → F) (_program : Nat)
    (ops : List (Op F)) :
    ∀ (s : SpriteBatch F) (opened : Bool), wellFormedBatches s._batches →
      (opened = true → s._batches = []) → framedCalls opened ops = true →
      wellFormedBatches (s.calls cosf sinf _program ops)._batches := by
  induction ops with
  | nil => intro s opened hw _ _; exact hw
  | cons op ops ih =>
    intro s opened hw ho hf
    have hstep : s.calls cosf sinf _program (op :: ops)
        = (s.call cosf sinf _program op).calls cosf sinf _program ops := rfl
    rw [hstep]
    cases op with
    | begin =>
      simp only [framedCalls] at hf
      exact ih _ true (Or.inl (begin_batches s)) (fun _ => begin_batches s) hf
    | draw d =>
      simp only [framedCalls] at hf
      have hb : (s.call cosf sinf _program (Op.draw d))._batches = s._batches :=
        drawCall_batches cosf sinf s d
      exact ih _ opened (by rw [hb]; exact hw) (fun h => by rw [hb]; exact ho h) hf
    | end' ssm =>
      simp only [framedCalls, Bool.and_eq_true] at hf
      exact ih _ false (end_wellFormed ssm s (ho hf.1)) (fun h => by cases h) hf.2
    | renderBatch mWorld mCamera ss ds rs shader =>
      simp only [framedCalls] at hf
      exact ih _ opened hw ho hf
    | renderBatch_screenSize mWorld screenSize ss ds rs shader =>
      simp only [framedCalls] at hf
      exact ih _ opened hw ho hf
    | renderBatch_identity screenSize ss ds rs shader =>
      simp only [framedCalls] at hf
      exact ih _ opened hw ho hf
    | dispose =>
      simp only [framedCalls] at hf
      have hb : (s.call cosf sinf _program Op.dispose)._batches = s._batches :=
        dispose_batches s
      exact ih _ opened (by rw [hb]; exact hw) (fun h => by rw [hb]; exact ho h) hf

/-- C23, as stated, fails: on a freshly constructed batch the calls `begin, draw, end, draw,
end` (a second `end` with no `begin` before it) leave the batch list
`{5, count 6, offset 0}, {5, count 6, offset 0}`, whose second descriptor does not start where
the first one stops. -/
theorem wellFormed_fails_without_begin :
    ((SpriteBatch.new ℚ true 9).calls id id 0
        [Op.begin,
         Op.draw (DrawCall.simple 5 { x := 0, y := 0 } { x := 1, y := 1 }
           { r := 0, g := 0, b := 0, a := 0 } 0),
         Op.end' SpriteSortMode.TEXTURE,
         Op.draw (DrawCall.simple 5 { x := 0, y := 0 } { x := 1, y := 1 }
           { r := 0, g := 0, b := 0, a := 0 } 0),
         Op.end' SpriteSortMode.TEXTURE])._batches
        = [{ textureID := 5, indices := 6, indexOffset := 0 },
           { textureID := 5, indices := 6, indexOffset := 0 }]
      ∧ ¬ wellFormedBatches
          ((SpriteBatch.new ℚ true 9).calls id id 0
            [Op.begin,
             Op.draw (DrawCall.simple 5 { x := 0, y := 0 } { x := 1, y := 1 }
               { r := 0, g := 0, b := 0, a := 0 } 0),
             Op.end' SpriteSortMode.TEXTURE,
             Op.draw (DrawCall.simple 5 { x := 0, y := 0 } { x := 1, y := 1 }
               { r := 0, g := 0, b := 0, a := 0 } 0),
             Op.end' SpriteSortMode.TEXTURE])._batches := by
  have h : ((SpriteBatch.new ℚ true 9).calls id id 0
        [Op.begin,
         Op.draw (DrawCall.simple 5 { x := 0, y := 0 } { x := 1, y := 1 }
           { r := 0, g := 0, b := 0, a := 0 } 0),
         Op.end' SpriteSortMode.TEXTURE,
         Op.draw (DrawCall.simple 5 { x := 0, y := 0 } { x := 1, y := 1 }
           { r := 0, g := 0, b := 0, a := 0 } 0),
         Op.end' SpriteSortMode.TEXTURE])._batches
        = [{ textureID := 5, indices := 6, indexOffset := 0 },
           { textureID := 5, indices := 6, indexOffset := 0 }] := by
    rfl
  refine ⟨h, ?_⟩
  rw [h]
  intro hw
  rcases hw with hw | ⟨_, hw⟩
  · cases hw
  · have := hw 0 (by simp)
    simp at this

/-- C23, amended: in every state reached from a freshly constructed batch by a sequence of
calls in which every `end` comes after a `begin` with no other `end` in between, the batch
list is empty, or its first descriptor starts at index 0 and every descriptor starts where
the previous one stops. -/
theorem framed_calls_keep_batches_wellFormed [LinearOrderedField F] (cosf sinf : F → F)
    (_program : Nat) (isDynamic : Bool) (texPixel : Nat) (ops : List (Op F))
    (hf : framedCalls false ops = true) :
    wellFormedBatches
      ((SpriteBatch.new F isDynamic texPixel).calls cosf sinf _program ops)._batches :=
  framed_wellFormed cosf sinf _program ops _ false (Or.inl rfl) (fun h => by cases h) hf

theorem framed_calls_keep_batches_wellFormed_witness :
    framedCalls false
        [Op.begin,
         Op.draw (DrawCall.simple 5 (f32v2.mk (0 : ℚ) 0) (f32v2.mk 1 1) (ColorRGBA8.mk 0 0 0 0)
           0),
         Op.end' SpriteSortMode.TEXTURE, Op.begin,
         Op.draw (DrawCall.simple 5 (f32v2.mk (0 : ℚ) 0) (f32v2.mk 1 1) (ColorRGBA8.mk 0 0 0 0)
           0),
         Op.end' SpriteSortMode.TEXTURE] = true
      ∧ wellFormedBatches
          ((SpriteBatch.new ℚ true 9).calls id id 0
            [Op.begin,
             Op.draw (DrawCall.simple 5 (f32v2.mk (0 : ℚ) 0) (f32v2.mk 1 1)
               (ColorRGBA8.mk 0 0 0 0) 0),
             Op.end' SpriteSortMode.TEXTURE, Op.begin,
             Op.draw (DrawCall.simple 5 (f32v2.mk (0 : ℚ) 0) (f32v2.mk 1 1)
               (ColorRGBA8.mk 0 0 0 0) 0),
             Op.end' SpriteSortMode.TEXTURE])._batches :=
  ⟨rfl, framed_calls_keep_batches_wellFormed id id 0 true 9 _ rfl⟩

theorem foldl_step_glyphRecycler (rest : List (SpriteGlyph F)) :
    ∀ st : GenLoop F,
      (rest.foldl GenLoop.step st)._glyphRecycler.recycled
        = st._glyphRecycler.recycled ++ rest := by
  induction rest with
  | nil => intro st; simp
  | cons g rest ih =>
    intro st
    simp only [List.foldl_cons]
    rw [ih]
    simp [GenLoop.step, PtrRecycler.recycle]

theorem loopAfter_released (s : SpriteBatch F) (g0 : SpriteGlyph F)
    (done : List (SpriteGlyph F)) :
    (s.loopAfter g0 done)._glyphRecycler.recycled = s._glyphRecycler.recycled ++ g0 :: done
      ∧ (s.loopAfter g0 done).verts = (g0 :: done).flatMap SpriteGlyph.sixVerts := by
  unfold SpriteBatch.loopAfter
  rw [foldl_step_glyphRecycler, foldl_step_verts]
  simp [PtrRecycler.recycle]

theorem generateBatches_glyphRecycler (s : SpriteBatch F) (g0 : SpriteGlyph F)
    (rest : List (SpriteGlyph F)) (h : s._glyphs = g0 :: rest) :
    s.generateBatches._glyphRecycler = (s.loopAfter g0 rest)._glyphRecycler := by
  unfold SpriteBatch.generateBatches
  split
  · rename_i hg; rw [h] at hg; cases hg
  · rename_i a l hg
    rw [h] at hg
    cases hg
    rfl

/-- C24: for every `end(ssm)` that finalizes `n ≥ 1` glyphs, afterwards the glyph sequence is
empty and the glyph recycler has received exactly the `n` glyphs, once each, in post-sort
order.  At every point of the glyph loop the glyphs released so far are exactly the glyphs
whose six vertices are in the vertex array (copy and release go glyph by glyph). -/
theorem end_releases_glyphs [LinearOrder F] (ssm : SpriteSortMode) (s : SpriteBatch F)
    (hn : 1 ≤ s._glyphs.length) :
    (s.end' ssm)._glyphs = []
      ∧ (s.end' ssm)._glyphRecycler.recycled
        = s._glyphRecycler.recycled ++ (s.sortGlyphs ssm)._glyphs
      ∧ (s.sortGlyphs ssm)._glyphs.Perm s._glyphs
      ∧ (s.sortGlyphs ssm)._glyphs.length = s._glyphs.length
      ∧ ∀ (g0 : SpriteGlyph F) (done todo : List (SpriteGlyph F)),
          (s.sortGlyphs ssm)._glyphs = g0 :: (done ++ todo) →
          ((s.sortGlyphs ssm).loopAfter g0 done)._glyphRecycler.recycled
              = s._glyphRecycler.recycled ++ g0 :: done
            ∧ ((s.sortGlyphs ssm).loopAfter g0 done).verts
              = (g0 :: done).flatMap SpriteGlyph.sixVerts := by
  have hg : s._glyphs ≠ [] := by
    intro h; rw [h] at hn; simp at hn
  have hrec : (s.sortGlyphs ssm)._glyphRecycler = s._glyphRecycler := by
    rw [sortGlyphs_eq]
  refine ⟨end_glyphs ssm s, ?_, sortGlyphs_perm ssm s, (sortGlyphs_perm ssm s).length_eq, ?_⟩
  · obtain ⟨g0, rest, h⟩ := List.exists_cons_of_ne_nil (sortGlyphs_ne_nil ssm s hg)
    unfold SpriteBatch.end'
    rw [generateBatches_glyphRecycler _ g0 rest h, (loopAfter_released _ g0 rest).1, hrec, h]
  · intro g0 done todo _
    have := loopAfter_released (s.sortGlyphs ssm) g0 done
    rw [hrec] at this
    exact this

theorem end_releases_glyphs_witness :
    1 ≤ frame557._glyphs.length
      ∧ (frame557.end' SpriteSortMode.TEXTURE)._glyphs = []
      ∧ (frame557.end' SpriteSortMode.TEXTURE)._glyphRecycler.recycled
        = frame557._glyphRecycler.recycled
          ++ (frame557.sortGlyphs SpriteSortMode.TEXTURE)._glyphs :=
  ⟨by simp [frame557],
    (end_releases_glyphs SpriteSortMode.TEXTURE frame557 (by simp [frame557])).1,
    (end_releases_glyphs SpriteSortMode.TEXTURE frame557 (by simp [frame557])).2.1⟩

/-- C25: for every state (a batch constructed without `init`, of capacity 0, included) and
every `end(ssm)` that finalizes `n ≥ 1` glyphs, the partial update covers exactly `6 * n`
vertices from offset 0, and the capacity in force when it is issued is at least `n`, so
`6 * n ≤ 6 * capacity`: either the capacity was already sufficient and is unchanged, or the
buffer has just been reallocated for `6 * capacity` vertices. -/
theorem upload_within_capacity [LinearOrder F] (ssm : SpriteSortMode) (s : SpriteBatch F)
    (hn : 1 ≤ s._glyphs.length) :
    ∃ (pre : List (GLCall F)) (verts : List (VertexSpriteBatch F)),
      (s.end' ssm).glCalls
          = s.glCalls ++ pre
            ++ [GLCall.bufferSubData 0 (6 * s._glyphs.length) verts, GLCall.bindBuffer 0]
        ∧ verts.length = 6 * s._glyphs.length
        ∧ s._glyphs.length ≤ (s.end' ssm)._glyphCapacity
        ∧ 6 * s._glyphs.length ≤ 6 * (s.end' ssm)._glyphCapacity
        ∧ ((pre = [GLCall.bindBuffer s._vbo]
              ∧ (s.end' ssm)._glyphCapacity = s._glyphCapacity)
            ∨ pre = [GLCall.bindBuffer s._vbo,
                GLCall.bufferData (6 * (s.end' ssm)._glyphCapacity) s._bufUsage]) := by
  have hg : s._glyphs ≠ [] := by
    intro h; rw [h] at hn; simp at hn
  have hne := sortGlyphs_ne_nil ssm s hg
  have hlen := (sortGlyphs_perm ssm s).length_eq
  have hcap := generateBatches_capacity (s.sortGlyphs ssm) hne
  have hgl := generateBatches_glCalls (s.sortGlyphs ssm) hne
  rw [hlen] at hcap hgl
  have hfields : (s.sortGlyphs ssm)._glyphCapacity = s._glyphCapacity
      ∧ (s.sortGlyphs ssm).glCalls = s.glCalls ∧ (s.sortGlyphs ssm)._vbo = s._vbo
      ∧ (s.sortGlyphs ssm)._bufUsage = s._bufUsage := by
    rw [sortGlyphs_eq]; exact ⟨rfl, rfl, rfl, rfl⟩
  obtain ⟨h1, h2, h3, h4⟩ := hfields
  rw [h1] at hcap hgl
  rw [h2, h3, h4] at hgl
  have hv : ((s.sortGlyphs ssm)._glyphs.flatMap SpriteGlyph.sixVerts).length
      = 6 * s._glyphs.length := by
    rw [flatMap_sixVerts_length, hlen]
  have hE : s.end' ssm = (s.sortGlyphs ssm).generateBatches := rfl
  by_cases hgt : s._glyphs.length > s._glyphCapacity
  · have hc : (s.end' ssm)._glyphCapacity = s._glyphs.length * 2 := by
      rw [hE, hcap]; simp [hgt]
    refine ⟨[GLCall.bindBuffer s._vbo,
        GLCall.bufferData (6 * (s.end' ssm)._glyphCapacity) s._bufUsage], _, ?_, hv,
      by omega, by omega, Or.inr rfl⟩
    rw [hE, hgl, ← hE, hc]
    simp [hgt, Nat.mul_comm]
  · have hc : (s.end' ssm)._glyphCapacity = s._glyphCapacity := by
      rw [hE, hcap]; simp [hgt]
    refine ⟨[GLCall.bindBuffer s._vbo], _, ?_, hv, by omega, by omega, Or.inl ⟨rfl, hc⟩⟩
    rw [hE, hgl]
    simp [hgt, Nat.mul_comm]

theorem upload_within_capacity_witness :
    1 ≤ frame557._glyphs.length ∧ frame557._glyphCapacity = 0
      ∧ ∃ (pre : List (GLCall ℚ)) (verts : List (VertexSpriteBatch ℚ)),
        (frame557.end' SpriteSortMode.TEXTURE).glCalls
            = frame557.glCalls ++ pre
              ++ [GLCall.bufferSubData 0 (6 * frame557._glyphs.length) verts,
                  GLCall.bindBuffer 0]
          ∧ verts.length = 6 * frame557._glyphs.length
          ∧ frame557._glyphs.length ≤ (frame557.end' SpriteSortMode.TEXTURE)._glyphCapacity
          ∧ 6 * frame557._glyphs.length
              ≤ 6 * (frame557.end' SpriteSortMode.TEXTURE)._glyphCapacity
          ∧ ((pre = [GLCall.bindBuffer frame557._vbo]
                ∧ (frame557.end' SpriteSortMode.TEXTURE)._glyphCapacity
                  = frame557._glyphCapacity)
              ∨ pre = [GLCall.bindBuffer frame557._vbo,
                  GLCall.bufferData (6 * (frame557.end' SpriteSortMode.TEXTURE)._glyphCapacity)
                    frame557._bufUsage]) :=
  ⟨by simp [frame557], rfl,
    upload_within_capacity SpriteSortMode.TEXTURE frame557 (by simp [frame557])⟩

/-- C26: `end` is idempotent: for every state `s` and sort modes `p`, `q`, `end(q)` after
`end(p)` changes nothing: the whole state (batch list, glyph sequence, capacity and device
log, so no device call is issued) is the state after `end(p)` alone. -/
theorem end_idempotent [LinearOrder F] (p q : SpriteSortMode) (s : SpriteBatch F) :
    (s.end' p).end' q = s.end' p
      ∧ ((s.end' p).end' q)._batches = (s.end' p)._batches
      ∧ ((s.end' p).end' q)._glyphs = (s.end' p)._glyphs
      ∧ ((s.end' p).end' q)._glyphCapacity = (s.end' p)._glyphCapacity
      ∧ ((s.end' p).end' q).glCalls = (s.end' p).glCalls := by
  have h : (s.end' p).end' q = s.end' p := end_nil q _ (end_glyphs p s)
  exact ⟨h, by rw [h], by rw [h], by rw [h], by rw [h]⟩

end vg

namespace vui

/-! ## The slider entry parser (C27) -/

/-- C27 (defect of the code): the `"max"` entry does exactly what the `"min"` entry does.
When its value parses as the integer `v` the only call made on the slider is `setMin v`;
`setMax` is never called, so the maximum is not set and the minimum is overwritten.  With
integer nodes, `"max": 50` returns `true` after the single call `setMin 50`. -/
theorem parseSliderEntry_max_calls_setMin {Node Raw Length F : Type}
    (env : SliderParsers Node Raw Length F) (value : Node) :
    parseSliderEntry env "max" value = parseSliderEntry env "min" value
      ∧ parseSliderEntry env "max" value
        = parsedThen (env.parseI32 value) SliderCall.setMin
      ∧ (∀ v : Int, SliderCall.setMax v ∉ (parseSliderEntry env "max" value).2)
      ∧ parseSliderEntry intNodeParsers "max" 50 = (true, [SliderCall.setMin 50]) := by
  have h1 : parseSliderEntry env "max" value
      = parsedThen (env.parseI32 value) SliderCall.setMin := by
    simp [parseSliderEntry]
  have h2 : parseSliderEntry env "min" value
      = parsedThen (env.parseI32 value) SliderCall.setMin := by
    simp [parseSliderEntry]
  refine ⟨by rw [h1, h2], h1, ?_, ?_⟩
  · intro v
    rw [h1]
    cases env.parseI32 value <;> simp [parsedThen]
  · simp [parseSliderEntry, parsedThen, intNodeParsers]

end vui
